import Mathlib

/-!
Shallow embedding of the EduVerse backend's course-enrollment, course-update,
course-delete, teacher-update and quiz CRUD logic (src/app/crud/courses.py,
src/app/crud/teachers.py, src/app/crud/quizzes.py, src/app/routers/quizzes.py),
together with theorems settling the frozen claims about that logic.

Documents live in a remote MongoDB; they are modelled here as Lean structures,
each collection as a list of documents, and the MongoDB operations used by the
code (find_one, update_one, update_many, delete_one, $addToSet, $pull, $inc,
$set) as functions on those lists.  ObjectIds are modelled as their 24-hex
string representation; the Python code's str/ObjectId conversions are identity
under this model because str . ObjectId = id on valid hex strings.  Timestamps
(datetime.utcnow()) are modelled as a Nat passed in as "now".
-/

namespace EduVerse

/-- bson's ObjectId.is_valid on a string: 24 characters, all hexadecimal. -/
def isHexDigitChar (c : Char) : Bool :=
  c.isDigit || ('a' ≤ c && c ≤ 'f') || ('A' ≤ c && c ≤ 'F')

/-- ObjectId.is_valid for string inputs. -/
def objectIdIsValid (s : String) : Bool :=
  s.length == 24 && s.toList.all isHexDigitChar

/-- Whitespace as recognised by Python's str.strip(). -/
def isPyWhitespace (c : Char) : Bool :=
  c == ' ' || c == '\t' || c == '\n' || c == '\r' || c == '\x0b' || c == '\x0c'

/-- Python str.strip(): drop whitespace from both ends.  (Implemented on the
character list so that it evaluates by kernel reduction.) -/
def pyStrip (s : String) : String :=
  String.mk (((s.data.dropWhile isPyWhitespace).reverse.dropWhile
    isPyWhitespace).reverse)

/-- Python str.lower() for the ASCII strings this code compares. -/
def pyLower (s : String) : String :=
  String.mk (s.data.map Char.toLower)

/-! ### MongoDB primitives on list-modelled collections -/

/-- `update_one`: apply `f` to the first element satisfying `p` (Mongo matches
at most one document for the `_id`-bearing filters used in this code base). -/
def updateFirst (p : α → Bool) (f : α → α) : List α → List α
  | [] => []
  | x :: xs => if p x then f x :: xs else x :: updateFirst p f xs

/-- `modified_count` of an `update_one`: 1 when the first match was actually
changed by the update, 0 otherwise (Mongo counts only real modifications). -/
def updateFirstModified [DecidableEq α] (p : α → Bool) (f : α → α) : List α → Nat
  | [] => 0
  | x :: xs => if p x then (if f x = x then 0 else 1) else updateFirstModified p f xs

/-- `update_many`: apply `f` to every element satisfying `p`. -/
def updateMany (p : α → Bool) (f : α → α) (l : List α) : List α :=
  l.map (fun x => if p x then f x else x)

/-- `modified_count` of an `update_many`. -/
def updateManyModified [DecidableEq α] (p : α → Bool) (f : α → α) (l : List α) : Nat :=
  l.countP (fun x => p x && decide (f x ≠ x))

/-- `delete_one`: remove the first element satisfying `p`. -/
def deleteFirst (p : α → Bool) : List α → List α
  | [] => []
  | x :: xs => if p x then xs else x :: deleteFirst p xs

/-- `deleted_count` of a `delete_one`. -/
def deleteFirstCount (p : α → Bool) (l : List α) : Nat :=
  if l.any p then 1 else 0

/-- Mongo `$addToSet`: append the value unless already present. -/
def addToSet [DecidableEq α] (l : List α) (x : α) : List α :=
  if x ∈ l then l else l ++ [x]

/-- Mongo `$pull` with an equality condition: remove every occurrence. -/
def pull [DecidableEq α] (l : List α) (x : α) : List α :=
  l.filter (fun y => y ≠ x)

/-! ### Data model (document shapes used by the claims) -/

/-- A module entry inside a course document; only its `title` matters to
`clean_update_data`'s placeholder detection. -/
structure ModuleItem where
  title : String
  deriving Repr, DecidableEq

/-- A value appearing in a course/teacher update payload (Python dict value). -/
inductive PyVal where
  /-- Python `None`. -/
  | vnone
  /-- a string value -/
  | vstr (s : String)
  /-- a list of module-like dicts -/
  | vlist (items : List ModuleItem)
  /-- a list of plain strings (assignedCourses, qualifications, subjects) -/
  | vstrs (items : List String)
  deriving Repr, DecidableEq

/-- A course document (courses collection). -/
structure Course where
  id : String
  tenantId : String
  teacherId : Option String
  title : String
  description : String
  category : String
  status : String
  thumbnailUrl : String
  modules : List ModuleItem
  enrolledStudents : Int
  updatedAt : Nat
  deriving Repr, DecidableEq

/-- A student profile document (students collection); `enrolledCourses`
holds course ids as strings, exactly as the Python code stores them. -/
structure Student where
  id : String
  tenantId : String
  enrolledCourses : List String
  updatedAt : Nat
  deriving Repr, DecidableEq

/-- A teacher profile document (teachers collection); `assignedCourses`
holds course ObjectIds (modelled as their hex strings). -/
structure TeacherDoc where
  id : String
  tenantId : String
  userId : Option String
  assignedCourses : List String
  qualifications : List String
  subjects : List String
  updatedAt : Nat
  deriving Repr, DecidableEq

/-- A user account document (users collection). -/
structure UserDoc where
  id : String
  fullName : String
  email : String
  profileImageURL : String
  contactNo : Option String
  country : Option String
  status : String
  updatedAt : Nat
  deriving Repr, DecidableEq

/-- A quiz document (quizzes collection). -/
structure Quiz where
  id : String
  courseId : String
  courseName : String
  teacherId : String
  tenantId : String
  quizNumber : Nat
  description : Option String
  dueDate : Nat
  questions : List String
  timeLimitMinutes : Option Nat
  totalMarks : Nat
  aiGenerated : Bool
  status : String
  createdAt : Nat
  updatedAt : Option Nat
  isDeleted : Bool
  deletedAt : Option Nat
  deriving Repr, DecidableEq

/-- A quiz submission document (quizSubmissions collection); only the
`quizId` reference matters to the edit-lock check. -/
structure QuizSubmission where
  id : String
  quizId : String
  deriving Repr, DecidableEq

/-- The document store: one list per collection used by the claims. -/
structure DB where
  courses : List Course
  students : List Student
  teachers : List TeacherDoc
  users : List UserDoc
  quizzes : List Quiz
  quizSubmissions : List QuizSubmission
  deriving Repr, DecidableEq

/-- Result of a courses.py CRUD call that returns {success, message}. -/
structure OpResult where
  db : DB
  success : Bool
  message : String
  deriving Repr, DecidableEq

/-! ### CourseCRUD.enroll_student / CourseCRUD.unenroll_student
(src/app/crud/courses.py lines 471-616, translated branch by branch). -/

/-- CourseCRUD.enroll_student: validate ids, check tenant-isolated existence
of course and student, reject duplicates, then $addToSet the course id on the
student and $inc the course's enrolledStudents counter. -/
def enroll_student (db : DB) (course_id student_id tenantId : String) (now : Nat) :
    OpResult :=
  if !objectIdIsValid course_id then
    ⟨db, false, s!"Invalid course ID format: {course_id}"⟩
  else if !objectIdIsValid student_id then
    ⟨db, false, s!"Invalid student ID format: {student_id}"⟩
  else if !objectIdIsValid tenantId then
    ⟨db, false, s!"Invalid tenant ID format: {tenantId}"⟩
  else
    match db.courses.find? (fun c => c.id == course_id && c.tenantId == tenantId) with
    | none =>
        match db.courses.find? (fun c => c.id == course_id) with
        | some _ => ⟨db, false, "Course found but belongs to different tenant"⟩
        | none => ⟨db, false, s!"Course not found with ID: {course_id}"⟩
    | some _ =>
        match db.students.find? (fun s => s.id == student_id && s.tenantId == tenantId) with
        | none =>
            match db.students.find? (fun s => s.id == student_id) with
            | some _ => ⟨db, false, "Student found but belongs to different tenant"⟩
            | none => ⟨db, false, s!"Student not found with ID: {student_id}"⟩
        | some student =>
            if course_id ∈ student.enrolledCourses then
              ⟨db, false, "Student is already enrolled in this course"⟩
            else
              let students' := updateFirst
                (fun s => s.id == student_id && s.tenantId == tenantId)
                (fun s => { s with
                  enrolledCourses := addToSet s.enrolledCourses course_id
                  updatedAt := now }) db.students
              let courses' := updateFirst
                (fun c => c.id == course_id && c.tenantId == tenantId)
                (fun c => { c with
                  enrolledStudents := c.enrolledStudents + 1
                  updatedAt := now }) db.courses
              ⟨{ db with students := students', courses := courses' }, true,
                "Successfully enrolled in course"⟩

/-- CourseCRUD.unenroll_student: symmetric to enroll_student — membership
required, $pull from the student's list and $inc the counter by -1. -/
def unenroll_student (db : DB) (course_id student_id tenantId : String) (now : Nat) :
    OpResult :=
  if !objectIdIsValid course_id then
    ⟨db, false, s!"Invalid course ID format: {course_id}"⟩
  else if !objectIdIsValid student_id then
    ⟨db, false, s!"Invalid student ID format: {student_id}"⟩
  else if !objectIdIsValid tenantId then
    ⟨db, false, s!"Invalid tenant ID format: {tenantId}"⟩
  else
    match db.courses.find? (fun c => c.id == course_id && c.tenantId == tenantId) with
    | none =>
        match db.courses.find? (fun c => c.id == course_id) with
        | some _ => ⟨db, false, "Course found but belongs to different tenant"⟩
        | none => ⟨db, false, s!"Course not found with ID: {course_id}"⟩
    | some _ =>
        match db.students.find? (fun s => s.id == student_id && s.tenantId == tenantId) with
        | none =>
            match db.students.find? (fun s => s.id == student_id) with
            | some _ => ⟨db, false, "Student found but belongs to different tenant"⟩
            | none => ⟨db, false, s!"Student not found with ID: {student_id}"⟩
        | some student =>
            if course_id ∉ student.enrolledCourses then
              ⟨db, false, "Student is not enrolled in this course"⟩
            else
              let students' := updateFirst
                (fun s => s.id == student_id && s.tenantId == tenantId)
                (fun s => { s with
                  enrolledCourses := pull s.enrolledCourses course_id
                  updatedAt := now }) db.students
              let courses' := updateFirst
                (fun c => c.id == course_id && c.tenantId == tenantId)
                (fun c => { c with
                  enrolledStudents := c.enrolledStudents - 1
                  updatedAt := now }) db.courses
              ⟨{ db with students := students', courses := courses' }, true,
                "Successfully unenrolled from course"⟩

/-- One sequential roster operation (the claims' "valid enroll and unenroll
operations executed sequentially without interleaving"). -/
inductive RosterOp where
  | enroll (course_id student_id tenantId : String) (now : Nat)
  | unenroll (course_id student_id tenantId : String) (now : Nat)
  deriving Repr, DecidableEq

/-- Execute one roster operation, keeping only the resulting store. -/
def runOp (db : DB) : RosterOp → DB
  | .enroll c s t n => (enroll_student db c s t n).db
  | .unenroll c s t n => (unenroll_student db c s t n).db

/-- Execute a sequence of roster operations left to right. -/
def runOps (db : DB) : List RosterOp → DB
  | [] => db
  | op :: ops => runOps (runOp db op) ops

/-- Number of students whose enrolledCourses list contains the course id. -/
def countEnrolled (db : DB) (cid : String) : Nat :=
  db.students.countP (fun s => decide (cid ∈ s.enrolledCourses))

/-- The course document with the given id (Mongo _id lookup). -/
def findCourseById (db : DB) (cid : String) : Option Course :=
  db.courses.find? (fun c => c.id == cid)

/-! ### CourseCRUD.clean_update_data / update_course / delete_course
(src/app/crud/courses.py lines 15-56, 290-373 and 377-469). -/

/-- The per-entry keep/skip decision of CourseCRUD.clean_update_data:
skip None, skip the literal "string" placeholder, skip empty strings except
for thumbnailUrl, skip all-placeholder module lists, and skip empty lists
except for modules. -/
def keepEntry (k : String) (v : PyVal) : Bool :=
  match v with
  | .vnone => false
  | .vstr s =>
      if pyLower (pyStrip s) == "string" then false
      else if pyStrip s == "" && k != "thumbnailUrl" then false
      else true
  | .vlist items =>
      if items.length > 0 &&
          items.all (fun it => pyLower (pyStrip it.title) == "string") then false
      else if items.length == 0 && k != "modules" then false
      else true
  | .vstrs items =>
      -- a list of non-dict items never trips the all-placeholder test
      -- (isinstance(item, dict) is false), only the empty-list rule
      if items.length == 0 && k != "modules" then false
      else true

/-- CourseCRUD.clean_update_data: filter the update dict entrywise. -/
def clean_update_data (d : List (String × PyVal)) : List (String × PyVal) :=
  d.filter (fun kv => keepEntry kv.1 kv.2)

/-- Apply one `$set` entry of a course update to the typed course document
(keys not belonging to the course schema leave the document unchanged). -/
def applyCourseSet (c : Course) (k : String) (v : PyVal) : Course :=
  if k == "title" then
    match v with | .vstr s => { c with title := s } | _ => c
  else if k == "description" then
    match v with | .vstr s => { c with description := s } | _ => c
  else if k == "category" then
    match v with | .vstr s => { c with category := s } | _ => c
  else if k == "status" then
    match v with | .vstr s => { c with status := s } | _ => c
  else if k == "thumbnailUrl" then
    match v with | .vstr s => { c with thumbnailUrl := s } | _ => c
  else if k == "teacherId" then
    match v with | .vstr s => { c with teacherId := some s } | _ => c
  else if k == "tenantId" then
    match v with | .vstr s => { c with tenantId := s } | _ => c
  else if k == "modules" then
    match v with | .vlist l => { c with modules := l } | _ => c
  else c

/-- Apply all `$set` entries of a cleaned update dict, left to right. -/
def applyCourseSets (c : Course) (kvs : List (String × PyVal)) : Course :=
  kvs.foldl (fun acc kv => applyCourseSet acc kv.1 kv.2) c

/-- Look up the "teacherId" entry of the cleaned dict, as
cleaned_data.get("teacherId") does. -/
def cleanedTeacherId (kvs : List (String × PyVal)) : Option String :=
  match kvs.find? (fun kv => kv.1 == "teacherId") with
  | some (_, .vstr s) => some s
  | _ => none

/-- CourseCRUD.update_course: tenant-isolated fetch, entry cleaning, `$set`
with a fresh updatedAt, then teacher-assignment synchronisation when the
instructor reference changed.  Returns the store plus the returned course
document (None on invalid ids or missing course). -/
def update_course (db : DB) (course_id tenantId : String)
    (updates : List (String × PyVal)) (now : Nat) : DB × Option Course :=
  if !objectIdIsValid course_id then (db, none)
  else if !objectIdIsValid tenantId then (db, none)
  else
    match db.courses.find? (fun c => c.id == course_id && c.tenantId == tenantId) with
    | none => (db, none)
    | some existing =>
        let old_teacher_id := existing.teacherId
        let cleaned := clean_update_data updates
        if cleaned.isEmpty then (db, some existing)
        else
          -- find_one_and_update with $set {cleaned, updatedAt: now},
          -- ReturnDocument.AFTER: returns the updated first match.
          let f : Course → Course :=
            fun c => { applyCourseSets c cleaned with updatedAt := now }
          let courses' := updateFirst
            (fun c => c.id == course_id && c.tenantId == tenantId) f db.courses
          let result := f existing
          let new_teacher_id := cleanedTeacherId cleaned
          match new_teacher_id with
          | some newT =>
              -- str(old_teacher_id) != str(new_teacher_id); str(None) = "None"
              -- never equals a hex ObjectId string, so a missing old teacher
              -- always counts as changed.
              if (match old_teacher_id with
                  | some oldT => oldT != newT
                  | none => true) then
                let teachers₁ :=
                  match old_teacher_id with
                  | some oldT => updateFirst (fun t => t.id == oldT)
                      (fun t => { t with
                        assignedCourses := pull t.assignedCourses course_id })
                      db.teachers
                  | none => db.teachers
                let teachers₂ := updateFirst (fun t => t.id == newT)
                  (fun t => { t with
                    assignedCourses := addToSet t.assignedCourses course_id })
                  teachers₁
                ({ db with courses := courses', teachers := teachers₂ }, some result)
              else
                ({ db with courses := courses' }, some result)
          | none => ({ db with courses := courses' }, some result)

/-- The success message of delete_course, reporting the modified counts. -/
def deleteCourseMessage (teacherCount studentCount : Nat) : String :=
  s!"Course deleted successfully. Updated {teacherCount} teacher and {studentCount} students."

/-- CourseCRUD.delete_course: tenant-isolated fetch, delete_one on the course,
`$pull` of the course id from the owning teacher's assignedCourses and from
every enrolled student's enrolledCourses, and a message carrying the two
modified counts. -/
def delete_course (db : DB) (course_id tenantId : String) (now : Nat) : OpResult :=
  if !objectIdIsValid course_id then
    ⟨db, false, s!"Invalid course ID format: {course_id}"⟩
  else if !objectIdIsValid tenantId then
    ⟨db, false, s!"Invalid tenant ID format: {tenantId}"⟩
  else
    match db.courses.find? (fun c => c.id == course_id && c.tenantId == tenantId) with
    | none =>
        match db.courses.find? (fun c => c.id == course_id) with
        | some _ => ⟨db, false, "Course found but belongs to different tenant"⟩
        | none => ⟨db, false, s!"Course not found with ID: {course_id}"⟩
    | some course =>
        let teacher_id := course.teacherId
        let pc : Course → Bool := fun c => c.id == course_id && c.tenantId == tenantId
        let courses' := deleteFirst pc db.courses
        if deleteFirstCount pc db.courses > 0 then
          let ft : TeacherDoc → TeacherDoc := fun t =>
            { t with assignedCourses := pull t.assignedCourses course_id
                     updatedAt := now }
          let teachers' :=
            match teacher_id with
            | some tid => updateFirst (fun t => t.id == tid) ft db.teachers
            | none => db.teachers
          let teacherModified :=
            match teacher_id with
            | some tid => updateFirstModified (fun t => t.id == tid) ft db.teachers
            | none => 0
          let ps : Student → Bool := fun s => course_id ∈ s.enrolledCourses
          let fs : Student → Student := fun s =>
            { s with enrolledCourses := pull s.enrolledCourses course_id
                     updatedAt := now }
          let students' := updateMany ps fs db.students
          let studentsModified := updateManyModified ps fs db.students
          ⟨{ db with courses := courses', teachers := teachers', students := students' },
            true,
            deleteCourseMessage (if teacher_id.isSome then teacherModified else 0)
              studentsModified⟩
        else
          ⟨db, false, "Failed to delete course"⟩

/-! ### update_teacher (src/app/crud/teachers.py lines 162-218). -/

/-- The per-entry keep/skip decision of update_teacher's cleaning loop:
skip None, skip empty strings except for profileImageURL.  Unlike the course
path's clean_update_data, there is no check for the literal "string"
placeholder here. -/
def teacherKeepEntry (k : String) (v : PyVal) : Bool :=
  match v with
  | .vnone => false
  | .vstr s => !(pyStrip s == "" && k != "profileImageURL")
  | _ => true

/-- The account-record fields of the profile/user split in update_teacher. -/
def userFields : List String :=
  ["fullName", "email", "profileImageURL", "contactNo", "country", "status"]

/-- Apply one `$set` entry of the user partition to a user document. -/
def applyUserSet (u : UserDoc) (k : String) (v : PyVal) : UserDoc :=
  if k == "fullName" then
    match v with | .vstr s => { u with fullName := s } | _ => u
  else if k == "email" then
    match v with | .vstr s => { u with email := s } | _ => u
  else if k == "profileImageURL" then
    match v with | .vstr s => { u with profileImageURL := s } | _ => u
  else if k == "contactNo" then
    match v with | .vstr s => { u with contactNo := some s } | _ => u
  else if k == "country" then
    match v with | .vstr s => { u with country := some s } | _ => u
  else if k == "status" then
    match v with | .vstr s => { u with status := s } | _ => u
  else u

/-- Apply all `$set` entries of the user partition, left to right. -/
def applyUserSets (u : UserDoc) (kvs : List (String × PyVal)) : UserDoc :=
  kvs.foldl (fun acc kv => applyUserSet acc kv.1 kv.2) u

/-- Apply one `$set` entry of the teacher-profile partition. -/
def applyTeacherSet (t : TeacherDoc) (k : String) (v : PyVal) : TeacherDoc :=
  if k == "assignedCourses" then
    match v with | .vstrs l => { t with assignedCourses := l } | _ => t
  else if k == "qualifications" then
    match v with | .vstrs l => { t with qualifications := l } | _ => t
  else if k == "subjects" then
    match v with | .vstrs l => { t with subjects := l } | _ => t
  else if k == "tenantId" then
    match v with | .vstr s => { t with tenantId := s } | _ => t
  else t

/-- Apply all `$set` entries of the teacher partition, left to right. -/
def applyTeacherSets (t : TeacherDoc) (kvs : List (String × PyVal)) : TeacherDoc :=
  kvs.foldl (fun acc kv => applyTeacherSet acc kv.1 kv.2) t

/-- update_teacher: fetch the teacher profile, clean the payload, partition
the surviving entries into account fields and profile fields, and write each
non-empty partition to its own record with a fresh updatedAt.  The Bool
records whether the teacher was found. -/
def update_teacher (db : DB) (id : String) (updates : List (String × PyVal))
    (now : Nat) : DB × Bool :=
  match db.teachers.find? (fun t => t.id == id) with
  | none => (db, false)
  | some teacher =>
      let cleaned := updates.filter (fun kv => teacherKeepEntry kv.1 kv.2)
      if cleaned.isEmpty then (db, true)
      else
        let user_updates := cleaned.filter (fun kv => kv.1 ∈ userFields)
        let teacher_updates := cleaned.filter (fun kv => kv.1 ∉ userFields)
        let users' :=
          if !user_updates.isEmpty && teacher.userId.isSome then
            updateFirst (fun u => teacher.userId == some u.id)
              (fun u => { applyUserSets u user_updates with updatedAt := now })
              db.users
          else db.users
        let teachers' :=
          if !teacher_updates.isEmpty then
            updateFirst (fun t => t.id == id)
              (fun t => { applyTeacherSets t teacher_updates with updatedAt := now })
              db.teachers
          else db.teachers
        ({ db with users := users', teachers := teachers' }, true)

/-! ### Quiz CRUD (src/app/crud/quizzes.py) and the quiz router's status
mapping (src/app/routers/quizzes.py). -/

/-- A value appearing in a quiz update payload. -/
inductive QuizVal where
  /-- Python `None`. -/
  | qnone
  /-- a string value -/
  | qstr (s : String)
  /-- an integer or datetime value -/
  | qnat (n : Nat)
  /-- a boolean value -/
  | qbool (b : Bool)
  /-- a list of question dicts (payloads kept opaque) -/
  | qlist (qs : List String)
  deriving Repr, DecidableEq

/-- The fields update_quiz refuses to change once a submission exists. -/
def restrictedQuizField (k : String) : Bool :=
  k == "questions" || k == "totalMarks" || k == "quizNumber"

/-- The per-entry keep/skip decision of update_quiz's filtering loop:
skip None, skip the empty string, and skip restricted fields when
submissions exist. -/
def quizKeepEntry (hasSubmissions : Bool) (k : String) (v : QuizVal) : Bool :=
  match v with
  | .qnone => false
  | .qstr s =>
      if s == "" then false
      else !(hasSubmissions && restrictedQuizField k)
  | _ => !(hasSubmissions && restrictedQuizField k)

/-- Apply one `$set` entry of a quiz update to the typed quiz document. -/
def applyQuizSet (q : Quiz) (k : String) (v : QuizVal) : Quiz :=
  if k == "quizNumber" then
    match v with | .qnat n => { q with quizNumber := n } | _ => q
  else if k == "description" then
    match v with | .qstr s => { q with description := some s } | _ => q
  else if k == "dueDate" then
    match v with | .qnat n => { q with dueDate := n } | _ => q
  else if k == "questions" then
    match v with | .qlist qs => { q with questions := qs } | _ => q
  else if k == "timeLimitMinutes" then
    match v with | .qnat n => { q with timeLimitMinutes := some n } | _ => q
  else if k == "totalMarks" then
    match v with | .qnat n => { q with totalMarks := n } | _ => q
  else if k == "aiGenerated" then
    match v with | .qbool b => { q with aiGenerated := b } | _ => q
  else if k == "status" then
    match v with | .qstr s => { q with status := s } | _ => q
  else q

/-- Apply all `$set` entries of a filtered quiz update, left to right. -/
def applyQuizSets (q : Quiz) (kvs : List (String × QuizVal)) : Quiz :=
  kvs.foldl (fun acc kv => applyQuizSet acc kv.1 kv.2) q

/-- Result of crud.quizzes.update_quiz (None / "Unauthorized" / quiz dict),
plus the HTTPException raised on a malformed id by _ensure_objectid. -/
inductive QuizResult where
  /-- _ensure_objectid raised a 400 HTTPException -/
  | invalidId
  /-- the function returned None -/
  | notFound
  /-- the function returned the string "Unauthorized" -/
  | unauthorized
  /-- the function returned the (serialized) quiz document -/
  | ok (q : Quiz)
  deriving Repr, DecidableEq

/-- Number of quizSubmissions documents referencing the quiz. -/
def submissionCount (db : DB) (quizId : String) : Nat :=
  db.quizSubmissions.countP (fun s => s.quizId == quizId)

/-- crud.quizzes.get_quiz: fetch by id with the isDeleted filter. -/
def get_quiz (db : DB) (id : String) : Option Quiz :=
  db.quizzes.find? (fun q => q.id == id && !q.isDeleted)

/-- crud.quizzes.update_quiz: owner check, submission-count lock, entrywise
filtering, then `$set` of the surviving entries plus a fresh updatedAt. -/
def update_quiz (db : DB) (id teacherId : String)
    (updates : List (String × QuizVal)) (now : Nat) : DB × QuizResult :=
  if !objectIdIsValid id then (db, .invalidId)
  else
    match db.quizzes.find? (fun q => q.id == id && !q.isDeleted) with
    | none => (db, .notFound)
    | some quiz =>
        if quiz.teacherId != teacherId then (db, .unauthorized)
        else
          let hasSubmissions := submissionCount db id > 0
          let safe := updates.filter (fun kv => quizKeepEntry hasSubmissions kv.1 kv.2)
          let f : Quiz → Quiz := fun q => { applyQuizSets q safe with updatedAt := some now }
          let quizzes' := updateFirst (fun q => q.id == id) f db.quizzes
          let db' := { db with quizzes := quizzes' }
          -- the code refetches by _id after the update; Mongo's _id
          -- uniqueness guarantees this finds the document just updated
          match quizzes'.find? (fun q => q.id == id) with
          | some updated => (db', .ok updated)
          | none => (db', .notFound)

/-- crud.quizzes.delete_quiz: owner check then soft delete — `$set` of the
isDeleted flag, deletedAt and updatedAt; the document is not removed.  The
submissions collection is never consulted. -/
def delete_quiz (db : DB) (id teacherId : String) (now : Nat) : DB × QuizResult :=
  match db.quizzes.find? (fun q => q.id == id && !q.isDeleted) with
  | none => (db, .notFound)
  | some quiz =>
      if quiz.teacherId != teacherId then (db, .unauthorized)
      else
        let f : Quiz → Quiz := fun q =>
          { q with isDeleted := true, deletedAt := some now, updatedAt := some now }
        let quizzes' := updateFirst (fun q => q.id == id) f db.quizzes
        ({ db with quizzes := quizzes' }, .ok (f quiz))

/-- routers/quizzes.update_quiz_route: id validation then the HTTP status the
route responds with for each CRUD outcome (200 for a served body). -/
def update_quiz_route_status (db : DB) (quiz_id teacher_id : String)
    (updates : List (String × QuizVal)) (now : Nat) : Nat :=
  if !objectIdIsValid quiz_id then 400
  else if !objectIdIsValid teacher_id then 400
  else
    match (update_quiz db quiz_id teacher_id updates now).2 with
    | .invalidId => 400
    | .unauthorized => 401
    | .notFound => 404
    | .ok _ => 200

/-- routers/quizzes.delete_quiz_route: id validation then the HTTP status. -/
def delete_quiz_route_status (db : DB) (quiz_id teacher_id : String)
    (now : Nat) : Nat :=
  if !objectIdIsValid quiz_id then 400
  else if !objectIdIsValid teacher_id then 400
  else
    match (delete_quiz db quiz_id teacher_id now).2 with
    | .invalidId => 400
    | .unauthorized => 401
    | .notFound => 404
    | .ok _ => 200

/-! ### Auxiliary predicates and concrete witness data -/

/-- The Mongo filter {_id: sid, tenantId: t} on the students collection. -/
def studentQuery (sid t : String) : Student → Bool :=
  fun s => s.id == sid && s.tenantId == t

/-- The Mongo filter {_id: cid, tenantId: t} on the courses collection. -/
def courseQuery (cid t : String) : Course → Bool :=
  fun c => c.id == cid && c.tenantId == t

/-- The claimed invariant: the course with the given id exists and its
enrolledStudents counter equals the number of students whose list contains
the id.  The Nodup conjunct is Mongo's _id uniqueness for courses. -/
def CounterInv (db : DB) (cid : String) : Prop :=
  (db.courses.map Course.id).Nodup ∧
  ∃ c, findCourseById db cid = some c ∧
    c.enrolledStudents = (countEnrolled db cid : Int)

/-- Concrete course id used by the witnesses. -/
def wCourseId : String := "aaaaaaaaaaaaaaaaaaaaaaaa"

/-- Concrete student id used by the witnesses. -/
def wStudentId : String := "bbbbbbbbbbbbbbbbbbbbbbbb"

/-- Concrete tenant id used by the witnesses. -/
def wTenantId : String := "cccccccccccccccccccccccc"

/-- Concrete teacher id used by the witnesses. -/
def wTeacherId : String := "dddddddddddddddddddddddd"

/-- Concrete course document (freshly created: counter 0). -/
def wCourse : Course :=
  { id := wCourseId, tenantId := wTenantId, teacherId := some wTeacherId,
    title := "Algebra", description := "intro", category := "math",
    status := "draft", thumbnailUrl := "", modules := [],
    enrolledStudents := 0, updatedAt := 0 }

/-- Concrete student document (no enrollments). -/
def wStudent : Student :=
  { id := wStudentId, tenantId := wTenantId, enrolledCourses := [], updatedAt := 0 }

/-- Concrete store: one course, one student, nothing else. -/
def wDB : DB :=
  { courses := [wCourse], students := [wStudent], teachers := [], users := [],
    quizzes := [], quizSubmissions := [] }

/-- A second tenant id, for cross-tenant scenarios. -/
def wTenant2 : String := "eeeeeeeeeeeeeeeeeeeeeeee"

/-- The witness student placed under the second tenant. -/
def wStudentT2 : Student := { wStudent with tenantId := wTenant2 }

/-- Store whose only student belongs to the second tenant. -/
def wDBcross : DB := { wDB with students := [wStudentT2] }

/-- The witness student already enrolled in the witness course. -/
def wStudentE : Student := { wStudent with enrolledCourses := [wCourseId] }

/-- Store whose student is already enrolled in the course. -/
def wDBE : DB := { wDB with students := [wStudentE] }

/-- Concrete user id of the witness teacher's account record. -/
def wUserId : String := "ffffffffffffffffffffffff"

/-- Witness teacher profile document, assigned the witness course. -/
def wTeacher : TeacherDoc :=
  { id := wTeacherId, tenantId := wTenantId, userId := some wUserId,
    assignedCourses := [wCourseId], qualifications := [], subjects := [],
    updatedAt := 0 }

/-- Witness user account record of the witness teacher. -/
def wUser : UserDoc :=
  { id := wUserId, fullName := "Alice", email := "alice@school.test",
    profileImageURL := "http://img", contactNo := none, country := none,
    status := "active", updatedAt := 0 }

/-- A second teacher id, for owner-reassignment scenarios. -/
def wTeacherId2 : String := "abababababababababababab"

/-- A second teacher profile document with no assigned courses. -/
def wTeacher2 : TeacherDoc :=
  { id := wTeacherId2, tenantId := wTenantId, userId := none,
    assignedCourses := [], qualifications := [], subjects := [],
    updatedAt := 0 }

/-- Store with the enrolled student, both teachers and the user record. -/
def wDBfull : DB :=
  { courses := [wCourse], students := [wStudentE],
    teachers := [wTeacher, wTeacher2], users := [wUser],
    quizzes := [], quizSubmissions := [] }

/-- Concrete quiz id. -/
def wQuizId : String := "012345678901234567890123"

/-- Witness quiz document owned by the witness teacher. -/
def wQuiz : Quiz :=
  { id := wQuizId, courseId := wCourseId, courseName := "Algebra",
    teacherId := wTeacherId, tenantId := wTenantId, quizNumber := 1,
    description := some "midterm", dueDate := 100, questions := ["q1", "q2"],
    timeLimitMinutes := some 30, totalMarks := 10, aiGenerated := false,
    status := "active", createdAt := 0, updatedAt := none,
    isDeleted := false, deletedAt := none }

/-- A submission for the witness quiz. -/
def wSubmission : QuizSubmission :=
  { id := "123412341234123412341234", quizId := wQuizId }

/-- Store with the quiz and one submission for it. -/
def wDBquizSub : DB :=
  { courses := [], students := [], teachers := [], users := [],
    quizzes := [wQuiz], quizSubmissions := [wSubmission] }

/-- Store with the quiz and no submissions. -/
def wDBquiz : DB :=
  { courses := [], students := [], teachers := [], users := [],
    quizzes := [wQuiz], quizSubmissions := [] }

/-! ## Theorems -/

theorem updateFirst_of_find?_eq_none (p : α → Bool) (f : α → α) (l : List α)
    (h : l.find? p = none) : updateFirst p f l = l := by
  induction l with
  | nil => rfl
  | cons x xs ih =>
    rw [List.find?_cons] at h
    split at h
    · exact absurd h (by simp)
    · simp only [updateFirst]
      rename_i hp
      rw [if_neg (by simp [hp]), ih h]

theorem map_updateFirst (p : α → Bool) (f : α → α) (g : α → β) (l : List α)
    (h : ∀ x, g (f x) = g x) : (updateFirst p f l).map g = l.map g := by
  induction l with
  | nil => rfl
  | cons x xs ih =>
    simp only [updateFirst]
    by_cases hp : p x
    · simp [hp, h]
    · simp [hp, ih]

theorem countP_updateFirst (p q : α → Bool) (f : α → α) (l : List α) (a : α)
    (h : l.find? p = some a) :
    (updateFirst p f l).countP q + (if q a then 1 else 0)
      = l.countP q + (if q (f a) then 1 else 0) := by
  induction l with
  | nil => simp at h
  | cons x xs ih =>
    by_cases hp : p x
    · rw [List.find?_cons_of_pos _ hp] at h
      injection h with h
      subst h
      simp only [updateFirst, if_pos hp, List.countP_cons]
      by_cases hq : q x <;> by_cases hqf : q (f x) <;> simp [hq, hqf]
    · rw [List.find?_cons_of_neg _ hp] at h
      have := ih h
      simp only [updateFirst, if_neg hp, List.countP_cons]
      by_cases hq : q x <;> simp [hq] <;> omega

theorem find?_updateFirst_eq (p r : α → Bool) (f : α → α) (l : List α) (a : α)
    (hfind : l.find? p = some a)
    (huniq : ∀ x ∈ l, r x = true → x = a)
    (hra : r (f a) = true) :
    (updateFirst p f l).find? r = some (f a) := by
  induction l with
  | nil => simp at hfind
  | cons x xs ih =>
    by_cases hp : p x
    · rw [List.find?_cons_of_pos _ hp] at hfind
      injection hfind with hfind
      subst hfind
      simp only [updateFirst, if_pos hp]
      exact List.find?_cons_of_pos _ hra
    · rw [List.find?_cons_of_neg _ hp] at hfind
      have hrx : r x = false := by
        by_contra hc
        have hx : x = a := huniq x (by simp) (by revert hc; cases r x <;> simp)
        have hpa : p a = true := by
          have := List.find?_some hfind
          exact this
        rw [hx] at hp
        exact hp hpa
      simp only [updateFirst, if_neg hp]
      rw [List.find?_cons_of_neg _ (by simp [hrx])]
      exact ih hfind (fun x hx hr => huniq x (by simp [hx]) hr)

theorem find?_updateFirst_of_disjoint (p r : α → Bool) (f : α → α) (l : List α)
    (h : ∀ x ∈ l, p x = true → (r x = false ∧ r (f x) = false)) :
    (updateFirst p f l).find? r = l.find? r := by
  induction l with
  | nil => rfl
  | cons x xs ih =>
    by_cases hp : p x
    · obtain ⟨hrx, hrfx⟩ := h x (by simp) hp
      simp only [updateFirst, if_pos hp]
      rw [List.find?_cons_of_neg _ (by simp [hrfx]),
        List.find?_cons_of_neg _ (by simp [hrx])]
    · simp only [updateFirst, if_neg hp]
      by_cases hrx : r x
      · rw [List.find?_cons_of_pos _ hrx, List.find?_cons_of_pos _ hrx]
      · rw [List.find?_cons_of_neg _ hrx, List.find?_cons_of_neg _ hrx]
        exact ih (fun y hy hpy => h y (by simp [hy]) hpy)

theorem mem_addToSet_iff [DecidableEq α] (l : List α) (x y : α) :
    y ∈ addToSet l x ↔ y ∈ l ∨ y = x := by
  unfold addToSet
  split
  · rename_i hx
    constructor
    · exact fun h => Or.inl h
    · rintro (h | rfl)
      · exact h
      · exact hx
  · simp

theorem mem_pull_iff [DecidableEq α] (l : List α) (x y : α) :
    y ∈ pull l x ↔ y ∈ l ∧ y ≠ x := by
  simp [pull]

theorem enroll_success_shape (db : DB) (cid sid t : String) (now : Nat)
    (h : (enroll_student db cid sid t now).success = true) :
    ∃ c₀ s₀,
      db.courses.find? (courseQuery cid t) = some c₀ ∧
      db.students.find? (studentQuery sid t) = some s₀ ∧
      cid ∉ s₀.enrolledCourses ∧
      (enroll_student db cid sid t now).db =
        { db with
          students := updateFirst (studentQuery sid t)
            (fun s => { s with enrolledCourses := addToSet s.enrolledCourses cid,
                               updatedAt := now }) db.students
          courses := updateFirst (courseQuery cid t)
            (fun c => { c with enrolledStudents := c.enrolledStudents + 1,
                               updatedAt := now }) db.courses } := by
  unfold enroll_student at h
  split at h
  · simp at h
  rename_i hv1
  split at h
  · simp at h
  rename_i hv2
  split at h
  · simp at h
  rename_i hv3
  split at h
  · split at h <;> simp at h
  rename_i c₀ hc
  split at h
  · split at h <;> simp at h
  rename_i s₀ hs
  split at h
  · simp at h
  rename_i hmem
  refine ⟨c₀, s₀, hc, hs, hmem, ?_⟩
  unfold enroll_student
  rw [if_neg hv1, if_neg hv2, if_neg hv3, hc, hs]
  simp only [if_neg hmem]
  rfl

theorem unenroll_success_shape (db : DB) (cid sid t : String) (now : Nat)
    (h : (unenroll_student db cid sid t now).success = true) :
    ∃ c₀ s₀,
      db.courses.find? (courseQuery cid t) = some c₀ ∧
      db.students.find? (studentQuery sid t) = some s₀ ∧
      cid ∈ s₀.enrolledCourses ∧
      (unenroll_student db cid sid t now).db =
        { db with
          students := updateFirst (studentQuery sid t)
            (fun s => { s with enrolledCourses := pull s.enrolledCourses cid,
                               updatedAt := now }) db.students
          courses := updateFirst (courseQuery cid t)
            (fun c => { c with enrolledStudents := c.enrolledStudents - 1,
                               updatedAt := now }) db.courses } := by
  unfold unenroll_student at h
  split at h
  · simp at h
  rename_i hv1
  split at h
  · simp at h
  rename_i hv2
  split at h
  · simp at h
  rename_i hv3
  split at h
  · split at h <;> simp at h
  rename_i c₀ hc
  split at h
  · split at h <;> simp at h
  rename_i s₀ hs
  split at h
  · simp at h
  rename_i hmem
  refine ⟨c₀, s₀, hc, hs, Decidable.not_not.mp hmem, ?_⟩
  unfold unenroll_student
  rw [if_neg hv1, if_neg hv2, if_neg hv3, hc, hs]
  simp only [if_neg hmem]
  rfl

theorem enroll_db_or_success (db : DB) (cid sid t : String) (now : Nat) :
    (enroll_student db cid sid t now).db = db ∨
      (enroll_student db cid sid t now).success = true := by
  unfold enroll_student
  repeat' split
  all_goals first
  | exact Or.inl rfl
  | exact Or.inr rfl

theorem unenroll_db_or_success (db : DB) (cid sid t : String) (now : Nat) :
    (unenroll_student db cid sid t now).db = db ∨
      (unenroll_student db cid sid t now).success = true := by
  unfold unenroll_student
  repeat' split
  all_goals first
  | exact Or.inl rfl
  | exact Or.inr rfl

/-- Each successful enroll increases by exactly one the number of students
whose enrolledCourses list contains the course id. -/
theorem enroll_success_countEnrolled (db : DB) (cid sid t : String) (now : Nat)
    (h : (enroll_student db cid sid t now).success = true) :
    countEnrolled (enroll_student db cid sid t now).db cid
      = countEnrolled db cid + 1 := by
  obtain ⟨c₀, s₀, hc, hs, hmem, hdb⟩ := enroll_success_shape db cid sid t now h
  rw [hdb]
  unfold countEnrolled
  have := countP_updateFirst (studentQuery sid t)
    (fun s => decide (cid ∈ s.enrolledCourses))
    (fun s => { s with enrolledCourses := addToSet s.enrolledCourses cid,
                       updatedAt := now }) db.students s₀ hs
  simp only [decide_eq_true_eq] at this
  rw [if_neg hmem, if_pos (by simp [mem_addToSet_iff])] at this
  simpa using this

/-- Each successful unenroll decreases by exactly one the number of students
whose enrolledCourses list contains the course id. -/
theorem unenroll_success_countEnrolled (db : DB) (cid sid t : String) (now : Nat)
    (h : (unenroll_student db cid sid t now).success = true) :
    countEnrolled (unenroll_student db cid sid t now).db cid + 1
      = countEnrolled db cid := by
  obtain ⟨c₀, s₀, hc, hs, hmem, hdb⟩ := unenroll_success_shape db cid sid t now h
  rw [hdb]
  unfold countEnrolled
  have := countP_updateFirst (studentQuery sid t)
    (fun s => decide (cid ∈ s.enrolledCourses))
    (fun s => { s with enrolledCourses := pull s.enrolledCourses cid,
                       updatedAt := now }) db.students s₀ hs
  simp only [decide_eq_true_eq] at this
  rw [if_pos hmem, if_neg (by simp [mem_pull_iff])] at this
  simpa using this

/-- Elements of a list whose mapped ids are Nodup agree when ids agree. -/
theorem course_id_unique {l : List Course} (hnodup : (l.map Course.id).Nodup)
    {x y : Course} (hx : x ∈ l) (hy : y ∈ l) (hxy : x.id = y.id) : x = y :=
  List.inj_on_of_nodup_map hnodup hx hy hxy

/-- enroll_student preserves the counter invariant of every course. -/
theorem counterInv_enroll (db : DB) (cid : String) (hInv : CounterInv db cid)
    (cid' sid t : String) (now : Nat) :
    CounterInv (enroll_student db cid' sid t now).db cid := by
  obtain ⟨hnodup, c, hfind, hcount⟩ := hInv
  rcases enroll_db_or_success db cid' sid t now with hdb | hsucc
  · rw [hdb]; exact ⟨hnodup, c, hfind, hcount⟩
  obtain ⟨c₀, s₀, hc, hs, hmem, hdb⟩ := enroll_success_shape db cid' sid t now hsucc
  have hcountnew := enroll_success_countEnrolled db cid' sid t now hsucc
  rw [hdb] at hcountnew ⊢
  have hidpres : ∀ x : Course,
      ({ x with enrolledStudents := x.enrolledStudents + 1, updatedAt := now } : Course).id
        = x.id := fun _ => rfl
  have hmapid : (updateFirst (courseQuery cid' t)
      (fun x => { x with enrolledStudents := x.enrolledStudents + 1, updatedAt := now })
      db.courses).map Course.id = db.courses.map Course.id :=
    map_updateFirst _ _ _ _ hidpres
  refine ⟨by rw [hmapid]; exact hnodup, ?_⟩
  by_cases hcid : cid' = cid
  · subst hcid
    -- the course found under (id, tenant) is the course tracked by the invariant
    have hc₀mem := List.mem_of_find?_eq_some hc
    have hc₀p := List.find?_some hc
    have hcmem := List.mem_of_find?_eq_some hfind
    have hcp := List.find?_some hfind
    have hc₀id : c₀.id = cid' := by
      have := hc₀p
      unfold courseQuery at this
      simp only [Bool.and_eq_true, beq_iff_eq] at this
      exact this.1
    have hcid2 : c.id = cid' := by
      unfold findCourseById at hfind
      have := List.find?_some hfind
      simpa using this
    have hceq : c₀ = c := course_id_unique hnodup hc₀mem hcmem (by rw [hc₀id, hcid2])
    subst hceq
    refine ⟨{ c₀ with enrolledStudents := c₀.enrolledStudents + 1, updatedAt := now },
      ?_, ?_⟩
    · unfold findCourseById
      exact find?_updateFirst_eq (courseQuery cid' t) (fun x => x.id == cid') _
        db.courses c₀ hc
        (fun x hx hr => course_id_unique hnodup hx hc₀mem (by
          simp only [beq_iff_eq] at hr
          rw [hr, hc₀id]))
        (by simp [hc₀id])
    · simp only [hcountnew]
      push_cast
      rw [hcount]
  · -- a different course: neither the tracked course nor the count changes
    refine ⟨c, ?_, ?_⟩
    · unfold findCourseById at hfind ⊢
      rw [find?_updateFirst_of_disjoint (courseQuery cid' t) (fun x => x.id == cid) _
        db.courses ?_]
      · exact hfind
      · intro x _ hpx
        unfold courseQuery at hpx
        simp only [Bool.and_eq_true, beq_iff_eq] at hpx
        constructor <;> simp [hpx.1, hcid]
    · -- countEnrolled is unchanged: the student gains cid', not cid
      have := countP_updateFirst (studentQuery sid t)
        (fun s => decide (cid ∈ s.enrolledCourses))
        (fun s => { s with enrolledCourses := addToSet s.enrolledCourses cid',
                           updatedAt := now }) db.students s₀ hs
      simp only [decide_eq_true_eq] at this
      have hiff : (cid ∈ addToSet s₀.enrolledCourses cid') ↔ cid ∈ s₀.enrolledCourses := by
        rw [mem_addToSet_iff]
        constructor
        · rintro (h | h)
          · exact h
          · exact absurd h.symm hcid
        · exact fun h => Or.inl h
      have hchange : List.countP (fun s => decide (cid ∈ s.enrolledCourses))
          (updateFirst (studentQuery sid t)
            (fun s => { s with enrolledCourses := addToSet s.enrolledCourses cid',
                               updatedAt := now }) db.students)
          = List.countP (fun s => decide (cid ∈ s.enrolledCourses)) db.students := by
        by_cases hq : cid ∈ s₀.enrolledCourses
        · rw [if_pos hq, if_pos (by simpa [hiff])] at this
          omega
        · rw [if_neg hq, if_neg (by simpa [hiff])] at this
          omega
      rw [hcount]
      unfold countEnrolled
      dsimp only
      rw [hchange]

/-- unenroll_student preserves the counter invariant of every course. -/
theorem counterInv_unenroll (db : DB) (cid : String) (hInv : CounterInv db cid)
    (cid' sid t : String) (now : Nat) :
    CounterInv (unenroll_student db cid' sid t now).db cid := by
  obtain ⟨hnodup, c, hfind, hcount⟩ := hInv
  rcases unenroll_db_or_success db cid' sid t now with hdb | hsucc
  · rw [hdb]; exact ⟨hnodup, c, hfind, hcount⟩
  obtain ⟨c₀, s₀, hc, hs, hmem, hdb⟩ := unenroll_success_shape db cid' sid t now hsucc
  have hcountnew := unenroll_success_countEnrolled db cid' sid t now hsucc
  rw [hdb] at hcountnew ⊢
  have hidpres : ∀ x : Course,
      ({ x with enrolledStudents := x.enrolledStudents - 1, updatedAt := now } : Course).id
        = x.id := fun _ => rfl
  have hmapid : (updateFirst (courseQuery cid' t)
      (fun x => { x with enrolledStudents := x.enrolledStudents - 1, updatedAt := now })
      db.courses).map Course.id = db.courses.map Course.id :=
    map_updateFirst _ _ _ _ hidpres
  refine ⟨by rw [hmapid]; exact hnodup, ?_⟩
  by_cases hcid : cid' = cid
  · subst hcid
    have hc₀mem := List.mem_of_find?_eq_some hc
    have hcmem := List.mem_of_find?_eq_some hfind
    have hc₀id : c₀.id = cid' := by
      have := List.find?_some hc
      unfold courseQuery at this
      simp only [Bool.and_eq_true, beq_iff_eq] at this
      exact this.1
    have hcid2 : c.id = cid' := by
      unfold findCourseById at hfind
      have := List.find?_some hfind
      simpa using this
    have hceq : c₀ = c := course_id_unique hnodup hc₀mem hcmem (by rw [hc₀id, hcid2])
    subst hceq
    refine ⟨{ c₀ with enrolledStudents := c₀.enrolledStudents - 1, updatedAt := now },
      ?_, ?_⟩
    · unfold findCourseById
      exact find?_updateFirst_eq (courseQuery cid' t) (fun x => x.id == cid') _
        db.courses c₀ hc
        (fun x hx hr => course_id_unique hnodup hx hc₀mem (by
          simp only [beq_iff_eq] at hr
          rw [hr, hc₀id]))
        (by simp [hc₀id])
    · dsimp only
      rw [hcount, ← hcountnew]
      push_cast
      ring
  · refine ⟨c, ?_, ?_⟩
    · unfold findCourseById at hfind ⊢
      rw [find?_updateFirst_of_disjoint (courseQuery cid' t) (fun x => x.id == cid) _
        db.courses ?_]
      · exact hfind
      · intro x _ hpx
        unfold courseQuery at hpx
        simp only [Bool.and_eq_true, beq_iff_eq] at hpx
        constructor <;> simp [hpx.1, hcid]
    · have := countP_updateFirst (studentQuery sid t)
        (fun s => decide (cid ∈ s.enrolledCourses))
        (fun s => { s with enrolledCourses := pull s.enrolledCourses cid',
                           updatedAt := now }) db.students s₀ hs
      simp only [decide_eq_true_eq] at this
      have hiff : (cid ∈ pull s₀.enrolledCourses cid') ↔ cid ∈ s₀.enrolledCourses := by
        rw [mem_pull_iff]
        constructor
        · exact fun h => h.1
        · exact fun h => ⟨h, fun hcc => hcid hcc.symm⟩
      have hchange : List.countP (fun s => decide (cid ∈ s.enrolledCourses))
          (updateFirst (studentQuery sid t)
            (fun s => { s with enrolledCourses := pull s.enrolledCourses cid',
                               updatedAt := now }) db.students)
          = List.countP (fun s => decide (cid ∈ s.enrolledCourses)) db.students := by
        by_cases hq : cid ∈ s₀.enrolledCourses
        · rw [if_pos hq, if_pos (by simpa [hiff])] at this
          omega
        · rw [if_neg hq, if_neg (by simpa [hiff])] at this
          omega
      rw [hcount]
      unfold countEnrolled
      dsimp only
      rw [hchange]

/-- Running any single roster operation preserves the counter invariant. -/
theorem counterInv_runOp (db : DB) (cid : String) (op : RosterOp)
    (hInv : CounterInv db cid) : CounterInv (runOp db op) cid := by
  cases op with
  | enroll c s t n => exact counterInv_enroll db cid hInv c s t n
  | unenroll c s t n => exact counterInv_unenroll db cid hInv c s t n

/-- Running any sequence of roster operations preserves the invariant. -/
theorem counterInv_runOps (db : DB) (cid : String) (ops : List RosterOp)
    (hInv : CounterInv db cid) : CounterInv (runOps db ops) cid := by
  induction ops generalizing db with
  | nil => exact hInv
  | cons op ops ih => exact ih _ (counterInv_runOp db cid op hInv)

/-- C1: starting from a freshly created course (counter 0, no student list
contains it), after any sequence of enroll/unenroll operations executed
sequentially the course's enrolledStudents counter equals the number of
students whose enrolledCourses list contains the course id; moreover every
successful enroll raises that student count by exactly one and every
successful unenroll lowers it by exactly one. -/
theorem C1_enrollment_counter_matches_membership
    (db : DB) (cid : String) (c : Course)
    (hnodup : (db.courses.map Course.id).Nodup)
    (hfind : findCourseById db cid = some c)
    (hzero : c.enrolledStudents = 0)
    (hfresh : countEnrolled db cid = 0) :
    ∀ ops : List RosterOp,
      (∃ c', findCourseById (runOps db ops) cid = some c' ∧
        c'.enrolledStudents = (countEnrolled (runOps db ops) cid : Int))
      ∧ (∀ sid t now,
          (enroll_student (runOps db ops) cid sid t now).success = true →
            countEnrolled (enroll_student (runOps db ops) cid sid t now).db cid
              = countEnrolled (runOps db ops) cid + 1)
      ∧ (∀ sid t now,
          (unenroll_student (runOps db ops) cid sid t now).success = true →
            countEnrolled (unenroll_student (runOps db ops) cid sid t now).db cid + 1
              = countEnrolled (runOps db ops) cid) := by
  intro ops
  have hInv : CounterInv db cid := ⟨hnodup, c, hfind, by simp [hzero, hfresh]⟩
  obtain ⟨hnodup', c', hfind', hcount'⟩ := counterInv_runOps db cid ops hInv
  exact ⟨⟨c', hfind', hcount'⟩,
    fun sid t now h => enroll_success_countEnrolled _ cid sid t now h,
    fun sid t now h => unenroll_success_countEnrolled _ cid sid t now h⟩

/-- Witness for C1 at a concrete store and a concrete operation sequence
(enroll, duplicate enroll, unenroll, re-enroll). -/
theorem C1_enrollment_counter_matches_membership_witness :
    ∃ c', findCourseById (runOps wDB
        [RosterOp.enroll wCourseId wStudentId wTenantId 1,
         RosterOp.enroll wCourseId wStudentId wTenantId 2,
         RosterOp.unenroll wCourseId wStudentId wTenantId 3,
         RosterOp.enroll wCourseId wStudentId wTenantId 4]) wCourseId = some c' ∧
      c'.enrolledStudents = (countEnrolled (runOps wDB
        [RosterOp.enroll wCourseId wStudentId wTenantId 1,
         RosterOp.enroll wCourseId wStudentId wTenantId 2,
         RosterOp.unenroll wCourseId wStudentId wTenantId 3,
         RosterOp.enroll wCourseId wStudentId wTenantId 4]) wCourseId : Int) :=
  (C1_enrollment_counter_matches_membership wDB wCourseId wCourse
    (by decide) (by decide) (by decide) (by decide)
    [RosterOp.enroll wCourseId wStudentId wTenantId 1,
     RosterOp.enroll wCourseId wStudentId wTenantId 2,
     RosterOp.unenroll wCourseId wStudentId wTenantId 3,
     RosterOp.enroll wCourseId wStudentId wTenantId 4]).1

theorem find?_updateFirst_self (p : α → Bool) (f : α → α) (l : List α) (a : α)
    (hfind : l.find? p = some a) (hpa : p (f a) = true) :
    (updateFirst p f l).find? p = some (f a) := by
  induction l with
  | nil => simp at hfind
  | cons x xs ih =>
    by_cases hp : p x
    · rw [List.find?_cons_of_pos _ hp] at hfind
      injection hfind with hfind
      subst hfind
      simp only [updateFirst, if_pos hp]
      exact List.find?_cons_of_pos _ hpa
    · rw [List.find?_cons_of_neg _ hp] at hfind
      simp only [updateFirst, if_neg hp]
      rw [List.find?_cons_of_neg _ hp]
      exact ih hfind

theorem mem_of_mem_deleteFirst (p : α → Bool) {l : List α} {x : α}
    (h : x ∈ deleteFirst p l) : x ∈ l := by
  induction l with
  | nil => simp [deleteFirst] at h
  | cons y ys ih =>
    simp only [deleteFirst] at h
    split at h
    · exact List.mem_cons_of_mem _ h
    · rcases List.mem_cons.mp h with rfl | h
      · exact List.mem_cons_self _ _
      · exact List.mem_cons_of_mem _ (ih h)

theorem not_mem_deleteFirst_of_nodup (p : α → Bool) {l : List α} {a : α}
    (hnodup : l.Nodup) (hfind : l.find? p = some a) :
    a ∉ deleteFirst p l := by
  induction l with
  | nil => simp at hfind
  | cons x xs ih =>
    by_cases hp : p x
    · rw [List.find?_cons_of_pos _ hp] at hfind
      injection hfind with hfind
      subst hfind
      simp only [deleteFirst, if_pos hp]
      exact (List.nodup_cons.mp hnodup).1
    · rw [List.find?_cons_of_neg _ hp] at hfind
      simp only [deleteFirst, if_neg hp]
      intro hmem
      rcases List.mem_cons.mp hmem with rfl | hmem
      · exact hp (List.find?_some hfind)
      · exact ih (List.nodup_cons.mp hnodup).2 hfind hmem

theorem updateFirstModified_eq_one [DecidableEq α] (p : α → Bool) (f : α → α)
    {l : List α} {a : α} (hfind : l.find? p = some a) (hne : f a ≠ a) :
    updateFirstModified p f l = 1 := by
  induction l with
  | nil => simp at hfind
  | cons x xs ih =>
    by_cases hp : p x
    · rw [List.find?_cons_of_pos _ hp] at hfind
      injection hfind with hfind
      subst hfind
      simp [updateFirstModified, hp, hne]
    · rw [List.find?_cons_of_neg _ hp] at hfind
      simp only [updateFirstModified, if_neg hp]
      exact ih hfind

theorem updateManyModified_eq_countP [DecidableEq α] (p : α → Bool) (f : α → α)
    (l : List α) (h : ∀ x, p x = true → f x ≠ x) :
    updateManyModified p f l = l.countP p := by
  unfold updateManyModified
  apply List.countP_congr
  intro x _
  constructor
  · intro hx
    simp only [Bool.and_eq_true] at hx
    exact hx.1
  · intro hx
    simp [hx, h x hx]

/-- C5: a second enroll_student for an already-enrolled (student, course)
pair is rejected with no state change, and unenroll_student for a student
not currently enrolled is rejected with no state change. -/
theorem C5_duplicate_enroll_and_unenroll_rejected
    (db : DB) (cid sid t : String) (now : Nat) (c : Course) (s : Student)
    (hv1 : objectIdIsValid cid = true) (hv2 : objectIdIsValid sid = true)
    (hv3 : objectIdIsValid t = true)
    (hc : db.courses.find? (courseQuery cid t) = some c)
    (hs : db.students.find? (studentQuery sid t) = some s) :
    (cid ∈ s.enrolledCourses →
      enroll_student db cid sid t now =
        ⟨db, false, "Student is already enrolled in this course"⟩)
    ∧ (cid ∉ s.enrolledCourses →
      unenroll_student db cid sid t now =
        ⟨db, false, "Student is not enrolled in this course"⟩) := by
  unfold courseQuery at hc
  unfold studentQuery at hs
  constructor
  · intro hmem
    unfold enroll_student
    rw [if_neg (by simp [hv1]), if_neg (by simp [hv2]), if_neg (by simp [hv3]),
      hc, hs]
    simp only [if_pos hmem]
  · intro hmem
    unfold unenroll_student
    rw [if_neg (by simp [hv1]), if_neg (by simp [hv2]), if_neg (by simp [hv3]),
      hc, hs]
    simp only [if_pos hmem]

/-- Witness for C5: the concrete enrolled store rejects the duplicate enroll,
and the concrete fresh store rejects the unenroll. -/
theorem C5_duplicate_enroll_and_unenroll_rejected_witness :
    (enroll_student wDBE wCourseId wStudentId wTenantId 7 =
      ⟨wDBE, false, "Student is already enrolled in this course"⟩)
    ∧ (unenroll_student wDB wCourseId wStudentId wTenantId 7 =
      ⟨wDB, false, "Student is not enrolled in this course"⟩) :=
  ⟨(C5_duplicate_enroll_and_unenroll_rejected wDBE wCourseId wStudentId wTenantId 7
      wCourse wStudentE (by decide) (by decide) (by decide) (by decide) (by decide)).1
    (by decide),
   (C5_duplicate_enroll_and_unenroll_rejected wDB wCourseId wStudentId wTenantId 7
      wCourse wStudent (by decide) (by decide) (by decide) (by decide) (by decide)).2
    (by decide)⟩

/-- C4: an enroll request whose course exists only under another tenant, or
whose student exists only under another tenant, is rejected with the
cross-tenant message and no writes; when course and student both match the
requested tenant and the student is not yet enrolled, the enroll succeeds
and the course's enrolledStudents counter increases by 1. -/
theorem C4_cross_tenant_enroll_rejected_and_matching_accepted
    (db : DB) (cid sid t : String) (now : Nat)
    (hv1 : objectIdIsValid cid = true) (hv2 : objectIdIsValid sid = true)
    (hv3 : objectIdIsValid t = true) :
    ((∃ c ∈ db.courses, c.id = cid) →
      (∀ c ∈ db.courses, c.id = cid → c.tenantId ≠ t) →
      enroll_student db cid sid t now =
        ⟨db, false, "Course found but belongs to different tenant"⟩)
    ∧ (∀ c, db.courses.find? (courseQuery cid t) = some c →
      (∃ s ∈ db.students, s.id = sid) →
      (∀ s ∈ db.students, s.id = sid → s.tenantId ≠ t) →
      enroll_student db cid sid t now =
        ⟨db, false, "Student found but belongs to different tenant"⟩)
    ∧ (∀ c s, db.courses.find? (courseQuery cid t) = some c →
      db.students.find? (studentQuery sid t) = some s →
      cid ∉ s.enrolledCourses →
      (enroll_student db cid sid t now).success = true ∧
      (enroll_student db cid sid t now).message = "Successfully enrolled in course" ∧
      (enroll_student db cid sid t now).db.courses.find? (courseQuery cid t)
        = some { c with enrolledStudents := c.enrolledStudents + 1,
                        updatedAt := now }) := by
  refine ⟨?_, ?_, ?_⟩
  · intro hex hall
    obtain ⟨c₁, hc₁, hid₁⟩ := hex
    have hnone : db.courses.find? (fun c => c.id == cid && c.tenantId == t) = none := by
      rw [List.find?_eq_none]
      intro x hx
      simp only [Bool.and_eq_true, beq_iff_eq, not_and]
      exact fun hxid => hall x hx hxid
    have hsome : ∃ c₂, db.courses.find? (fun c => c.id == cid) = some c₂ := by
      have : (db.courses.find? (fun c => c.id == cid)).isSome := by
        rw [List.find?_isSome]
        exact ⟨c₁, hc₁, by simp [hid₁]⟩
      exact Option.isSome_iff_exists.mp this
    obtain ⟨c₂, hc₂⟩ := hsome
    unfold enroll_student
    rw [if_neg (by simp [hv1]), if_neg (by simp [hv2]), if_neg (by simp [hv3]),
      hnone, hc₂]
  · intro c hc hex hall
    unfold courseQuery at hc
    have hnone : db.students.find? (fun s => s.id == sid && s.tenantId == t) = none := by
      rw [List.find?_eq_none]
      intro x hx
      simp only [Bool.and_eq_true, beq_iff_eq, not_and]
      exact fun hxid => hall x hx hxid
    obtain ⟨s₁, hs₁, hid₁⟩ := hex
    have hsome : ∃ s₂, db.students.find? (fun s => s.id == sid) = some s₂ := by
      have : (db.students.find? (fun s => s.id == sid)).isSome := by
        rw [List.find?_isSome]
        exact ⟨s₁, hs₁, by simp [hid₁]⟩
      exact Option.isSome_iff_exists.mp this
    obtain ⟨s₂, hs₂⟩ := hsome
    unfold enroll_student
    rw [if_neg (by simp [hv1]), if_neg (by simp [hv2]), if_neg (by simp [hv3]),
      hc, hnone, hs₂]
  · intro c s hc hs hmem
    have hcq := hc
    unfold courseQuery at hcq
    have hsq := hs
    unfold studentQuery at hsq
    have hres : enroll_student db cid sid t now =
        ⟨{ db with
          students := updateFirst (studentQuery sid t)
            (fun s => { s with enrolledCourses := addToSet s.enrolledCourses cid,
                               updatedAt := now }) db.students
          courses := updateFirst (courseQuery cid t)
            (fun c => { c with enrolledStudents := c.enrolledStudents + 1,
                               updatedAt := now }) db.courses },
          true, "Successfully enrolled in course"⟩ := by
      unfold enroll_student
      rw [if_neg (by simp [hv1]), if_neg (by simp [hv2]), if_neg (by simp [hv3]),
        hcq, hsq]
      simp only [if_neg hmem]
      rfl
    refine ⟨by rw [hres], by rw [hres], ?_⟩
    rw [hres]
    exact find?_updateFirst_self (courseQuery cid t)
      (fun c => { c with enrolledStudents := c.enrolledStudents + 1,
                         updatedAt := now }) db.courses c hc
      (by
        have := List.find?_some hc
        unfold courseQuery at this ⊢
        simpa using (by simpa using this))

/-- Witness for C4: the cross-tenant store rejects the enroll of the
second-tenant student, and the matching store accepts it with counter 1. -/
theorem C4_cross_tenant_enroll_rejected_and_matching_accepted_witness :
    (enroll_student wDBcross wCourseId wStudentId wTenantId 7 =
      ⟨wDBcross, false, "Student found but belongs to different tenant"⟩)
    ∧ (enroll_student wDB wCourseId wStudentId wTenantId 7).success = true
    ∧ (enroll_student wDB wCourseId wStudentId wTenantId 7).db.courses.find?
        (courseQuery wCourseId wTenantId)
        = some { wCourse with enrolledStudents := 1, updatedAt := 7 } := by
  refine ⟨?_, ?_, ?_⟩
  · exact (C4_cross_tenant_enroll_rejected_and_matching_accepted wDBcross
      wCourseId wStudentId wTenantId 7 (by decide) (by decide) (by decide)).2.1
      wCourse (by decide) ⟨wStudentT2, by decide, by decide⟩ (by decide)
  · exact ((C4_cross_tenant_enroll_rejected_and_matching_accepted wDB
      wCourseId wStudentId wTenantId 7 (by decide) (by decide) (by decide)).2.2
      wCourse wStudent (by decide) (by decide) (by decide)).1
  · exact ((C4_cross_tenant_enroll_rejected_and_matching_accepted wDB
      wCourseId wStudentId wTenantId 7 (by decide) (by decide) (by decide)).2.2
      wCourse wStudent (by decide) (by decide) (by decide)).2.2

/-- C3: deleting a course that exists under the requested tenant removes the
course document, pulls its id from the former owning teacher's
assignedCourses, pulls it from every student's enrolledCourses, and the
returned message reports the modified teacher/student counts. -/
theorem C3_delete_course_cleans_references
    (db : DB) (cid t tid : String) (now : Nat) (course : Course) (teacher : TeacherDoc)
    (hv1 : objectIdIsValid cid = true) (hv2 : objectIdIsValid t = true)
    (hc : db.courses.find? (courseQuery cid t) = some course)
    (hnodupC : (db.courses.map Course.id).Nodup)
    (hteacher : course.teacherId = some tid)
    (ht : db.teachers.find? (fun x => x.id == tid) = some teacher)
    (htime : teacher.updatedAt ≠ now) :
    (delete_course db cid t now).success = true
    ∧ findCourseById (delete_course db cid t now).db cid = none
    ∧ (delete_course db cid t now).db.teachers.find? (fun x => x.id == tid)
        = some { teacher with assignedCourses := pull teacher.assignedCourses cid,
                              updatedAt := now }
    ∧ cid ∉ (pull teacher.assignedCourses cid)
    ∧ (∀ s ∈ (delete_course db cid t now).db.students, cid ∉ s.enrolledCourses)
    ∧ (delete_course db cid t now).message =
        deleteCourseMessage 1
          (db.students.countP (fun s => decide (cid ∈ s.enrolledCourses))) := by
  have hcq := hc
  unfold courseQuery at hcq
  have hcmem := List.mem_of_find?_eq_some hcq
  have hcp := List.find?_some hcq
  have hpos : deleteFirstCount (fun c => c.id == cid && c.tenantId == t) db.courses > 0 := by
    unfold deleteFirstCount
    rw [if_pos (List.any_eq_true.mpr ⟨course, hcmem, hcp⟩)]
    omega
  have hres : delete_course db cid t now =
      ⟨{ db with
        courses := deleteFirst (fun c => c.id == cid && c.tenantId == t) db.courses
        teachers := updateFirst (fun x => x.id == tid)
          (fun x => { x with assignedCourses := pull x.assignedCourses cid,
                             updatedAt := now }) db.teachers
        students := updateMany (fun s => decide (cid ∈ s.enrolledCourses))
          (fun s => { s with enrolledCourses := pull s.enrolledCourses cid,
                             updatedAt := now }) db.students },
        true,
        deleteCourseMessage
          (updateFirstModified (fun x => x.id == tid)
            (fun x => { x with assignedCourses := pull x.assignedCourses cid,
                               updatedAt := now }) db.teachers)
          (updateManyModified (fun s => decide (cid ∈ s.enrolledCourses))
            (fun s => { s with enrolledCourses := pull s.enrolledCourses cid,
                               updatedAt := now }) db.students)⟩ := by
    unfold delete_course
    rw [if_neg (by simp [hv1]), if_neg (by simp [hv2]), hcq]
    simp only [hteacher, if_pos hpos]
    rfl
  have hmodT : updateFirstModified (fun x => x.id == tid)
      (fun x => { x with assignedCourses := pull x.assignedCourses cid,
                         updatedAt := now }) db.teachers = 1 :=
    updateFirstModified_eq_one _ _ ht (by
      intro heq
      exact htime ((congrArg TeacherDoc.updatedAt heq).symm))
  have hmodS : updateManyModified (fun s => decide (cid ∈ s.enrolledCourses))
      (fun s => { s with enrolledCourses := pull s.enrolledCourses cid,
                         updatedAt := now }) db.students
      = db.students.countP (fun s => decide (cid ∈ s.enrolledCourses)) :=
    updateManyModified_eq_countP _ _ _ (by
      intro x hx heq
      have hmem : cid ∈ x.enrolledCourses := by simpa using hx
      have hpe : pull x.enrolledCourses cid = x.enrolledCourses :=
        congrArg Student.enrolledCourses heq
      rw [← hpe] at hmem
      exact ((mem_pull_iff _ _ _).mp hmem).2 rfl)
  refine ⟨by rw [hres], ?_, ?_, ?_, ?_, ?_⟩
  · rw [hres]
    unfold findCourseById
    rw [List.find?_eq_none]
    intro x hx
    simp only [beq_iff_eq]
    intro hxid
    have hxmem : x ∈ db.courses :=
      mem_of_mem_deleteFirst _ hx
    have hxeq : x = course := course_id_unique hnodupC hxmem hcmem (by
      rw [hxid]
      have := hcp
      simp only [Bool.and_eq_true, beq_iff_eq] at this
      exact this.1.symm)
    subst hxeq
    exact absurd hx (not_mem_deleteFirst_of_nodup _ (hnodupC.of_map) hcq)
  · rw [hres]
    exact find?_updateFirst_self _ _ db.teachers teacher ht (by
      have := List.find?_some ht
      simpa using (by simpa using this))
  · intro hmem
    exact ((mem_pull_iff _ _ _).mp hmem).2 rfl
  · rw [hres]
    intro s hs
    unfold updateMany at hs
    rw [List.mem_map] at hs
    obtain ⟨x, hx, hxeq⟩ := hs
    by_cases hxp : cid ∈ x.enrolledCourses
    · rw [if_pos (by simpa using hxp)] at hxeq
      rw [← hxeq]
      intro hbad
      exact ((mem_pull_iff _ _ _).mp hbad).2 rfl
    · rw [if_neg (by simpa using hxp)] at hxeq
      rw [← hxeq]
      exact hxp
  · rw [hres, hmodT, hmodS]

/-- Witness for C3 at the concrete store: the delete succeeds and the
message reports 1 affected teacher and 1 affected student. -/
theorem C3_delete_course_cleans_references_witness :
    (delete_course wDBfull wCourseId wTenantId 7).success = true
    ∧ findCourseById (delete_course wDBfull wCourseId wTenantId 7).db wCourseId = none
    ∧ (delete_course wDBfull wCourseId wTenantId 7).message =
        deleteCourseMessage 1 1 := by
  have h := C3_delete_course_cleans_references wDBfull wCourseId wTenantId
    wTeacherId 7 wCourse wTeacher (by decide) (by decide) (by decide)
    (by decide) (by decide) (by decide) (by decide)
  exact ⟨h.1, h.2.1, h.2.2.2.2.2⟩

theorem cleanedTeacherId_ne_nil {kvs : List (String × PyVal)} {y : String}
    (h : cleanedTeacherId kvs = some y) : kvs.isEmpty = false := by
  cases kvs with
  | nil => simp [cleanedTeacherId] at h
  | cons a l => rfl

/-- C6: when a course update changes the teacher reference from x to a
different teacher y, update_course pulls the course id from x's
assignedCourses and adds it to y's: reading the two teacher documents back
afterwards, x's list no longer contains the course id and y's does. -/
theorem C6_owner_reassignment_syncs_assigned_courses
    (db : DB) (cid t x y : String) (now : Nat) (course : Course)
    (tx ty : TeacherDoc) (updates : List (String × PyVal))
    (hv1 : objectIdIsValid cid = true) (hv2 : objectIdIsValid t = true)
    (hc : db.courses.find? (courseQuery cid t) = some course)
    (hold : course.teacherId = some x)
    (hnew : cleanedTeacherId (clean_update_data updates) = some y)
    (hxy : x ≠ y)
    (htx : db.teachers.find? (fun z => z.id == x) = some tx)
    (hty : db.teachers.find? (fun z => z.id == y) = some ty) :
    (update_course db cid t updates now).1.teachers.find? (fun z => z.id == x)
      = some { tx with assignedCourses := pull tx.assignedCourses cid }
    ∧ cid ∉ pull tx.assignedCourses cid
    ∧ (update_course db cid t updates now).1.teachers.find? (fun z => z.id == y)
      = some { ty with assignedCourses := addToSet ty.assignedCourses cid }
    ∧ cid ∈ addToSet ty.assignedCourses cid := by
  have hcq := hc
  unfold courseQuery at hcq
  have hempty := cleanedTeacherId_ne_nil hnew
  have hres : (update_course db cid t updates now).1 =
      { db with
        courses := updateFirst (fun c => c.id == cid && c.tenantId == t)
          (fun c => { applyCourseSets c (clean_update_data updates) with
                      updatedAt := now }) db.courses
        teachers := updateFirst (fun z => z.id == y)
          (fun z => { z with assignedCourses := addToSet z.assignedCourses cid })
          (updateFirst (fun z => z.id == x)
            (fun z => { z with assignedCourses := pull z.assignedCourses cid })
            db.teachers) } := by
    unfold update_course
    rw [if_neg (by simp [hv1]), if_neg (by simp [hv2]), hcq]
    simp only [hempty, Bool.false_eq_true, if_false, hnew, hold,
      bne_iff_ne, ne_eq, hxy, not_false_eq_true, if_true]
  rw [hres]
  have hfx : (updateFirst (fun z => z.id == x)
      (fun z => { z with assignedCourses := pull z.assignedCourses cid })
      db.teachers).find? (fun z => z.id == x)
      = some { tx with assignedCourses := pull tx.assignedCourses cid } :=
    find?_updateFirst_self _ _ _ _ htx (by simpa using List.find?_some htx)
  have hfy₁ : (updateFirst (fun z => z.id == x)
      (fun z => { z with assignedCourses := pull z.assignedCourses cid })
      db.teachers).find? (fun z => z.id == y) = some ty := by
    rw [find?_updateFirst_of_disjoint _ _ _ _ ?_]
    · exact hty
    · intro z _ hz
      simp only [beq_iff_eq] at hz
      constructor <;> simp [hz, hxy]
  refine ⟨?_, ?_, ?_, ?_⟩
  · rw [find?_updateFirst_of_disjoint _ _ _ _ ?_]
    · exact hfx
    · intro z hzmem hz
      simp only [beq_iff_eq] at hz
      have hyx : ¬ (y = x) := fun h => hxy h.symm
      constructor <;> simp [hz, hyx]
  · intro hbad
    exact ((mem_pull_iff _ _ _).mp hbad).2 rfl
  · exact find?_updateFirst_self _ _ _ _ hfy₁ (by simpa using List.find?_some hfy₁)
  · rw [mem_addToSet_iff]
    exact Or.inr rfl

/-- Witness for C6: reassigning the witness course from the first teacher to
the second moves the course id between their assignedCourses lists. -/
theorem C6_owner_reassignment_syncs_assigned_courses_witness :
    (update_course wDBfull wCourseId wTenantId
        [("teacherId", PyVal.vstr wTeacherId2)] 7).1.teachers.find?
        (fun z => z.id == wTeacherId)
      = some { wTeacher with assignedCourses := pull wTeacher.assignedCourses wCourseId }
    ∧ wCourseId ∉ pull wTeacher.assignedCourses wCourseId
    ∧ (update_course wDBfull wCourseId wTenantId
        [("teacherId", PyVal.vstr wTeacherId2)] 7).1.teachers.find?
        (fun z => z.id == wTeacherId2)
      = some { wTeacher2 with
          assignedCourses := addToSet wTeacher2.assignedCourses wCourseId }
    ∧ wCourseId ∈ addToSet wTeacher2.assignedCourses wCourseId :=
  C6_owner_reassignment_syncs_assigned_courses wDBfull wCourseId wTenantId
    wTeacherId wTeacherId2 7 wCourse wTeacher wTeacher2
    [("teacherId", PyVal.vstr wTeacherId2)]
    (by decide) (by decide) (by decide) (by decide) (by rfl) (by decide)
    (by decide) (by decide)

theorem applyQuizSet_id (q : Quiz) (k : String) (v : QuizVal) :
    (applyQuizSet q k v).id = q.id := by
  unfold applyQuizSet
  repeat' split
  all_goals rfl

theorem applyQuizSets_id (q : Quiz) (kvs : List (String × QuizVal)) :
    (applyQuizSets q kvs).id = q.id := by
  induction kvs generalizing q with
  | nil => rfl
  | cons kv kvs ih =>
    unfold applyQuizSets at *
    rw [List.foldl_cons, ih, applyQuizSet_id]

theorem mem_updateFirst_of_find? {p : α → Bool} {f : α → α} {l : List α} {a x : α}
    (hnodup : l.Nodup) (hfind : l.find? p = some a) (hx : x ∈ updateFirst p f l) :
    x = f a ∨ (x ∈ l ∧ x ≠ a) := by
  induction l with
  | nil => simp at hfind
  | cons z zs ih =>
    by_cases hp : p z
    · rw [List.find?_cons_of_pos _ hp] at hfind
      injection hfind with hfind
      subst hfind
      simp only [updateFirst, if_pos hp] at hx
      rcases List.mem_cons.mp hx with rfl | hx
      · exact Or.inl rfl
      · refine Or.inr ⟨List.mem_cons_of_mem _ hx, ?_⟩
        intro heq
        exact (List.nodup_cons.mp hnodup).1 (heq ▸ hx)
    · rw [List.find?_cons_of_neg _ hp] at hfind
      simp only [updateFirst, if_neg hp] at hx
      rcases List.mem_cons.mp hx with rfl | hx
      · refine Or.inr ⟨List.mem_cons_self _ _, ?_⟩
        intro heq
        rw [heq] at hp
        exact hp (List.find?_some hfind)
      · rcases ih (List.nodup_cons.mp hnodup).2 hfind hx with h | ⟨h₁, h₂⟩
        · exact Or.inl h
        · exact Or.inr ⟨List.mem_cons_of_mem _ h₁, h₂⟩

/-- C8: delete_quiz by the owning teacher succeeds whatever the submissions
collection holds, soft-deletes (isDeleted flag plus deletedAt timestamp, the
document stays in the collection), and afterwards get_quiz, update_quiz and
delete_quiz all report the quiz as absent. -/
theorem C8_delete_quiz_soft_delete_terminal
    (db : DB) (qid tid : String) (now : Nat) (q : Quiz)
    (hv : objectIdIsValid qid = true)
    (hfind : db.quizzes.find? (fun z => z.id == qid && !z.isDeleted) = some q)
    (howner : q.teacherId = tid)
    (hnodup : (db.quizzes.map Quiz.id).Nodup) :
    (delete_quiz db qid tid now).2 =
      .ok { q with isDeleted := true, deletedAt := some now, updatedAt := some now }
    ∧ (∀ subs : List QuizSubmission,
        (delete_quiz { db with quizSubmissions := subs } qid tid now).2 =
          .ok { q with isDeleted := true, deletedAt := some now,
                       updatedAt := some now })
    ∧ (delete_quiz db qid tid now).1.quizzes.find? (fun z => z.id == qid)
        = some { q with isDeleted := true, deletedAt := some now,
                        updatedAt := some now }
    ∧ get_quiz (delete_quiz db qid tid now).1 qid = none
    ∧ (∀ tid' updates now',
        (update_quiz (delete_quiz db qid tid now).1 qid tid' updates now').2
          = .notFound)
    ∧ (∀ tid' now',
        (delete_quiz (delete_quiz db qid tid now).1 qid tid' now').2 = .notFound) := by
  have hqmem := List.mem_of_find?_eq_some hfind
  have hqp := List.find?_some hfind
  have hqid : q.id = qid := by
    simp only [Bool.and_eq_true, beq_iff_eq] at hqp
    exact hqp.1
  have hres : delete_quiz db qid tid now =
      ({ db with
          quizzes := updateFirst (fun z => z.id == qid)
            (fun z => { z with
              isDeleted := true
              deletedAt := some now
              updatedAt := some now }) db.quizzes },
        QuizResult.ok { q with
          isDeleted := true
          deletedAt := some now
          updatedAt := some now }) := by
    unfold delete_quiz
    rw [hfind]
    simp only [howner, bne_self_eq_false, Bool.false_eq_true, if_false]
  have hfind' : db.quizzes.find? (fun z => z.id == qid) = some q := by
    have hsome : (db.quizzes.find? (fun z => z.id == qid)).isSome :=
      List.find?_isSome.mpr ⟨q, hqmem, by simp [hqid]⟩
    obtain ⟨x, hx⟩ := Option.isSome_iff_exists.mp hsome
    have hxmem := List.mem_of_find?_eq_some hx
    have hxp := List.find?_some hx
    have hxq : x = q := List.inj_on_of_nodup_map hnodup hxmem hqmem (by
      simp only [beq_iff_eq] at hxp
      rw [hxp, hqid])
    rw [hx, hxq]
  have hafter : (delete_quiz db qid tid now).1.quizzes.find? (fun z => z.id == qid)
      = some { q with isDeleted := true, deletedAt := some now,
                      updatedAt := some now } := by
    rw [hres]
    exact find?_updateFirst_self _ _ _ _ hfind' (by simp [hqid])
  have hgone : (delete_quiz db qid tid now).1.quizzes.find?
      (fun z => z.id == qid && !z.isDeleted) = none := by
    rw [hres]
    rw [List.find?_eq_none]
    intro x hx
    rcases mem_updateFirst_of_find? (hnodup.of_map) hfind' hx with rfl | ⟨hxl, hxne⟩
    · simp
    · simp only [Bool.and_eq_true, beq_iff_eq, not_and]
      intro hxid
      exact absurd (List.inj_on_of_nodup_map hnodup hxl hqmem (by rw [hxid, hqid]))
        hxne
  refine ⟨by rw [hres], ?_, hafter, ?_, ?_, ?_⟩
  · intro subs
    unfold delete_quiz
    have : ({ db with quizSubmissions := subs } : DB).quizzes = db.quizzes := rfl
    rw [this, hfind]
    simp only [howner, bne_self_eq_false, Bool.false_eq_true, if_false]
  · unfold get_quiz
    exact hgone
  · intro tid' updates now'
    unfold update_quiz
    rw [if_neg (by simp [hv]), hgone]
  · intro tid' now'
    have hg : ((delete_quiz db qid tid now).1).quizzes.find?
        (fun z => z.id == qid && !z.isDeleted) = none := hgone
    generalize hD : (delete_quiz db qid tid now).1 = D at hg ⊢
    unfold delete_quiz
    rw [hg]

/-- Witness for C8 at the concrete store with one submission present. -/
theorem C8_delete_quiz_soft_delete_terminal_witness :
    (delete_quiz wDBquizSub wQuizId wTeacherId 7).2 =
      .ok { wQuiz with isDeleted := true, deletedAt := some 7, updatedAt := some 7 }
    ∧ get_quiz (delete_quiz wDBquizSub wQuizId wTeacherId 7).1 wQuizId = none := by
  have h := C8_delete_quiz_soft_delete_terminal wDBquizSub wQuizId wTeacherId 7 wQuiz
    (by decide) (by decide) (by decide) (by decide)
  exact ⟨h.1, h.2.2.2.1⟩

/-- C10: every authorized update_quiz on an existing quiz stamps the stored
document's updatedAt with the current time, even when the filtered update is
empty, so no authorized update leaves a stale-timestamped document unchanged. -/
theorem C10_update_quiz_always_stamps_updatedAt
    (db : DB) (qid tid : String) (now : Nat) (updates : List (String × QuizVal))
    (q : Quiz)
    (hv : objectIdIsValid qid = true)
    (hfind : db.quizzes.find? (fun z => z.id == qid && !z.isDeleted) = some q)
    (howner : q.teacherId = tid)
    (hnodup : (db.quizzes.map Quiz.id).Nodup) :
    ∃ q', (update_quiz db qid tid updates now).1.quizzes.find?
        (fun z => z.id == qid) = some q'
      ∧ q'.updatedAt = some now
      ∧ (update_quiz db qid tid updates now).2 = .ok q'
      ∧ (q.updatedAt ≠ some now → q' ≠ q) := by
  have hqmem := List.mem_of_find?_eq_some hfind
  have hqp := List.find?_some hfind
  have hqid : q.id = qid := by
    simp only [Bool.and_eq_true, beq_iff_eq] at hqp
    exact hqp.1
  have hfind' : db.quizzes.find? (fun z => z.id == qid) = some q := by
    have hsome : (db.quizzes.find? (fun z => z.id == qid)).isSome :=
      List.find?_isSome.mpr ⟨q, hqmem, by simp [hqid]⟩
    obtain ⟨x, hx⟩ := Option.isSome_iff_exists.mp hsome
    have hxmem := List.mem_of_find?_eq_some hx
    have hxp := List.find?_some hx
    have hxq : x = q := List.inj_on_of_nodup_map hnodup hxmem hqmem (by
      simp only [beq_iff_eq] at hxp
      rw [hxp, hqid])
    rw [hx, hxq]
  refine ⟨{ applyQuizSets q (updates.filter (fun kv =>
      quizKeepEntry (decide (submissionCount db qid > 0)) kv.1 kv.2)) with
      updatedAt := some now }, ?_, rfl, ?_, ?_⟩
  · unfold update_quiz
    rw [if_neg (by simp [hv]), hfind]
    simp only [howner, bne_self_eq_false, Bool.false_eq_true, if_false]
    rw [find?_updateFirst_self _ _ _ _ hfind'
      (by simp [applyQuizSets_id, hqid])]
    exact find?_updateFirst_self _ _ _ _ hfind'
      (by simp [applyQuizSets_id, hqid])
  · unfold update_quiz
    rw [if_neg (by simp [hv]), hfind]
    simp only [howner, bne_self_eq_false, Bool.false_eq_true, if_false]
    rw [find?_updateFirst_self _ _ _ _ hfind'
      (by simp [applyQuizSets_id, hqid])]
  · intro hstale heq
    exact hstale ((congrArg Quiz.updatedAt heq).symm)

/-- Witness for C10: the locked store (one submission) with a
restricted-only payload still gets a fresh updatedAt. -/
theorem C10_update_quiz_always_stamps_updatedAt_witness :
    ∃ q', (update_quiz wDBquizSub wQuizId wTeacherId
        [("questions", QuizVal.qlist ["x"])] 7).1.quizzes.find?
        (fun z => z.id == wQuizId) = some q'
      ∧ q'.updatedAt = some 7
      ∧ (update_quiz wDBquizSub wQuizId wTeacherId
          [("questions", QuizVal.qlist ["x"])] 7).2 = .ok q'
      ∧ (wQuiz.updatedAt ≠ some 7 → q' ≠ wQuiz) :=
  C10_update_quiz_always_stamps_updatedAt wDBquizSub wQuizId wTeacherId 7
    [("questions", QuizVal.qlist ["x"])] wQuiz
    (by decide) (by decide) (by decide) (by decide)

/-- C7 counterexample: at a concrete store, a quiz update and a quiz delete
issued by a teacher who is not the quiz's creator respond with HTTP 401, not
403 as claimed. -/
theorem C7_ownership_failure_status_counterexample :
    update_quiz_route_status wDBquiz wQuizId wTeacherId2 [] 7 = 401
    ∧ delete_quiz_route_status wDBquiz wQuizId wTeacherId2 7 = 401
    ∧ (401 : Nat) ≠ 403 := by
  refine ⟨?_, ?_, by decide⟩ <;> decide

/-- C7 amended: for every quiz update or delete request issued by a teacher
who is not the quiz's creating teacher, the HTTP response status is 401. -/
theorem C7_ownership_failure_returns_401
    (db : DB) (qid tid : String) (now : Nat) (updates : List (String × QuizVal))
    (q : Quiz)
    (hv1 : objectIdIsValid qid = true) (hv2 : objectIdIsValid tid = true)
    (hfind : db.quizzes.find? (fun z => z.id == qid && !z.isDeleted) = some q)
    (hnotowner : q.teacherId ≠ tid) :
    update_quiz_route_status db qid tid updates now = 401
    ∧ delete_quiz_route_status db qid tid now = 401 := by
  have hbne : (q.teacherId != tid) = true := by
    simp [bne_iff_ne, hnotowner]
  constructor
  · unfold update_quiz_route_status
    rw [if_neg (by simp [hv1]), if_neg (by simp [hv2])]
    have : (update_quiz db qid tid updates now).2 = QuizResult.unauthorized := by
      unfold update_quiz
      rw [if_neg (by simp [hv1]), hfind]
      simp only [hbne, if_true]
    rw [this]
  · unfold delete_quiz_route_status
    rw [if_neg (by simp [hv1]), if_neg (by simp [hv2])]
    have : (delete_quiz db qid tid now).2 = QuizResult.unauthorized := by
      unfold delete_quiz
      rw [hfind]
      simp only [hbne, if_true]
    rw [this]

/-- Witness for the amended C7 at the concrete store. -/
theorem C7_ownership_failure_returns_401_witness :
    update_quiz_route_status wDBquiz wQuizId wTeacherId2 [("description", QuizVal.qstr "x")] 7 = 401
    ∧ delete_quiz_route_status wDBquiz wQuizId wTeacherId2 7 = 401 :=
  C7_ownership_failure_returns_401 wDBquiz wQuizId wTeacherId2 7
    [("description", QuizVal.qstr "x")] wQuiz
    (by decide) (by decide) (by decide) (by decide)

theorem find?_id_of_find?_active {l : List Quiz} {qid : String} {q : Quiz}
    (hnodup : (l.map Quiz.id).Nodup)
    (hfind : l.find? (fun z => z.id == qid && !z.isDeleted) = some q) :
    l.find? (fun z => z.id == qid) = some q := by
  have hqmem := List.mem_of_find?_eq_some hfind
  have hqp := List.find?_some hfind
  have hqid : q.id = qid := by
    simp only [Bool.and_eq_true, beq_iff_eq] at hqp
    exact hqp.1
  have hsome : (l.find? (fun z => z.id == qid)).isSome :=
    List.find?_isSome.mpr ⟨q, hqmem, by simp [hqid]⟩
  obtain ⟨x, hx⟩ := Option.isSome_iff_exists.mp hsome
  have hxmem := List.mem_of_find?_eq_some hx
  have hxp := List.find?_some hx
  have hxq : x = q := List.inj_on_of_nodup_map hnodup hxmem hqmem (by
    simp only [beq_iff_eq] at hxp
    rw [hxp, hqid])
  rw [hx, hxq]

theorem quizKeepEntry_restricted_false (k : String) (v : QuizVal)
    (hk : restrictedQuizField k = true) : quizKeepEntry true k v = false := by
  cases v <;> simp [quizKeepEntry, hk]

/-- C2 counterexample: at a concrete store with one submission, an update
containing only `questions` is not a no-op on the stored quiz — the
restricted field stays unchanged but updatedAt is stamped, so the stored
document changes. -/
theorem C2_locked_update_not_noop_counterexample :
    submissionCount wDBquizSub wQuizId > 0
    ∧ (update_quiz wDBquizSub wQuizId wTeacherId
        [("questions", QuizVal.qlist ["new"])] 7).1.quizzes.find?
        (fun z => z.id == wQuizId)
      = some { wQuiz with updatedAt := some 7 }
    ∧ ({ wQuiz with updatedAt := some 7 } : Quiz) ≠ wQuiz := by
  refine ⟨by decide, by decide, by decide⟩

/-- Evaluation of update_quiz in the authorized, quiz-found case: the
filtered entries are `$set` together with a fresh updatedAt, and the updated
document is returned. -/
theorem update_quiz_eval (db : DB) (qid tid : String) (now : Nat)
    (updates : List (String × QuizVal)) (q : Quiz)
    (hv : objectIdIsValid qid = true)
    (hfind : db.quizzes.find? (fun z => z.id == qid && !z.isDeleted) = some q)
    (howner : q.teacherId = tid)
    (hnodup : (db.quizzes.map Quiz.id).Nodup) :
    update_quiz db qid tid updates now =
      ({ db with
        quizzes := updateFirst (fun z => z.id == qid)
          (fun z => { applyQuizSets z (updates.filter (fun kv =>
              quizKeepEntry (decide (submissionCount db qid > 0)) kv.1 kv.2)) with
            updatedAt := some now }) db.quizzes },
        QuizResult.ok { applyQuizSets q (updates.filter (fun kv =>
              quizKeepEntry (decide (submissionCount db qid > 0)) kv.1 kv.2)) with
            updatedAt := some now }) := by
  have hqp := List.find?_some hfind
  have hqid : q.id = qid := by
    simp only [Bool.and_eq_true, beq_iff_eq] at hqp
    exact hqp.1
  have hfind' := find?_id_of_find?_active hnodup hfind
  unfold update_quiz
  rw [if_neg (by simp [hv]), hfind]
  simp only [howner, bne_self_eq_false, Bool.false_eq_true, if_false]
  rw [find?_updateFirst_self (fun z => z.id == qid)
    (fun z => { applyQuizSets z (updates.filter (fun kv =>
        quizKeepEntry (decide (submissionCount db qid > 0)) kv.1 kv.2)) with
      updatedAt := some now })
    db.quizzes q hfind' (by simp [applyQuizSets_id, hqid])]

/-- C2 amended: once at least one submission exists, an authorized update
containing only restricted fields (questions/totalMarks) leaves every stored
field unchanged except the updatedAt stamp and is not rejected; an update
mixing a restricted field with metadata applies only the metadata; and with
zero submissions the restricted fields are applied. -/
theorem C2_submission_lock_drops_restricted_fields
    (db : DB) (qid tid : String) (now : Nat) (q : Quiz)
    (hv : objectIdIsValid qid = true)
    (hfind : db.quizzes.find? (fun z => z.id == qid && !z.isDeleted) = some q)
    (howner : q.teacherId = tid)
    (hnodup : (db.quizzes.map Quiz.id).Nodup) :
    (submissionCount db qid > 0 →
      ∀ updates : List (String × QuizVal),
        (∀ kv ∈ updates, kv.1 = "questions" ∨ kv.1 = "totalMarks") →
        (update_quiz db qid tid updates now).1.quizzes.find? (fun z => z.id == qid)
          = some { q with updatedAt := some now }
        ∧ (update_quiz db qid tid updates now).2 =
            .ok { q with updatedAt := some now })
    ∧ (submissionCount db qid = 0 →
      ∀ qs m,
        (update_quiz db qid tid
            [("questions", QuizVal.qlist qs), ("totalMarks", QuizVal.qnat m)]
            now).1.quizzes.find? (fun z => z.id == qid)
          = some { q with questions := qs, totalMarks := m, updatedAt := some now })
    ∧ (submissionCount db qid > 0 →
      ∀ qs d, d ≠ "" →
        (update_quiz db qid tid
            [("questions", QuizVal.qlist qs), ("description", QuizVal.qstr d)]
            now).1.quizzes.find? (fun z => z.id == qid)
          = some { q with description := some d, updatedAt := some now }) := by
  have hqp := List.find?_some hfind
  have hqid : q.id = qid := by
    simp only [Bool.and_eq_true, beq_iff_eq] at hqp
    exact hqp.1
  have hfind' := find?_id_of_find?_active hnodup hfind
  refine ⟨?_, ?_, ?_⟩
  · intro hpos updates hrestricted
    have hdec : decide (submissionCount db qid > 0) = true := by
      simpa using hpos
    have hsafe : updates.filter (fun kv =>
        quizKeepEntry (decide (submissionCount db qid > 0)) kv.1 kv.2) = [] := by
      rw [hdec]
      rw [List.filter_eq_nil_iff]
      intro kv hkv
      have hk : restrictedQuizField kv.1 = true := by
        rcases hrestricted kv hkv with h | h <;> simp [restrictedQuizField, h]
      simp [quizKeepEntry_restricted_false kv.1 kv.2 hk]
    rw [update_quiz_eval db qid tid now updates q hv hfind howner hnodup]
    rw [hsafe]
    constructor
    · dsimp only
      rw [find?_updateFirst_self (fun z => z.id == qid)
        (fun z => { applyQuizSets z [] with updatedAt := some now })
        db.quizzes q hfind' (by simp [applyQuizSets_id, hqid])]
      rfl
    · rfl
  · intro hzero qs m
    have hdec : decide (submissionCount db qid > 0) = false := by
      simp [hzero]
    have hsafe : ([("questions", QuizVal.qlist qs),
        ("totalMarks", QuizVal.qnat m)] : List (String × QuizVal)).filter (fun kv =>
        quizKeepEntry (decide (submissionCount db qid > 0)) kv.1 kv.2)
        = [("questions", QuizVal.qlist qs), ("totalMarks", QuizVal.qnat m)] := by
      rw [hdec]
      simp [quizKeepEntry]
    rw [update_quiz_eval db qid tid now
      [("questions", QuizVal.qlist qs), ("totalMarks", QuizVal.qnat m)]
      q hv hfind howner hnodup]
    rw [hsafe]
    dsimp only
    rw [find?_updateFirst_self (fun z => z.id == qid)
      (fun z => { applyQuizSets z
          [("questions", QuizVal.qlist qs), ("totalMarks", QuizVal.qnat m)] with
        updatedAt := some now })
      db.quizzes q hfind' (by simp [applyQuizSets_id, hqid])]
    rfl
  · intro hpos qs d hd
    have hdec : decide (submissionCount db qid > 0) = true := by
      simpa using hpos
    have hdne : (d == "") = false := by
      simp [hd]
    have hsafe : ([("questions", QuizVal.qlist qs),
        ("description", QuizVal.qstr d)] : List (String × QuizVal)).filter (fun kv =>
        quizKeepEntry (decide (submissionCount db qid > 0)) kv.1 kv.2)
        = [("description", QuizVal.qstr d)] := by
      rw [hdec]
      simp [quizKeepEntry, restrictedQuizField, hdne, hd]
    rw [update_quiz_eval db qid tid now
      [("questions", QuizVal.qlist qs), ("description", QuizVal.qstr d)]
      q hv hfind howner hnodup]
    rw [hsafe]
    dsimp only
    rw [find?_updateFirst_self (fun z => z.id == qid)
      (fun z => { applyQuizSets z [("description", QuizVal.qstr d)] with
        updatedAt := some now })
      db.quizzes q hfind' (by simp [applyQuizSets_id, hqid])]
    rfl

/-- Witness for the amended C2: with one submission the restricted-only
payload leaves only updatedAt changed; with none it applies the fields. -/
theorem C2_submission_lock_drops_restricted_fields_witness :
    ((update_quiz wDBquizSub wQuizId wTeacherId
        [("questions", QuizVal.qlist ["a"]), ("totalMarks", QuizVal.qnat 5)]
        7).1.quizzes.find? (fun z => z.id == wQuizId)
      = some { wQuiz with updatedAt := some 7 })
    ∧ ((update_quiz wDBquiz wQuizId wTeacherId
        [("questions", QuizVal.qlist ["a"]), ("totalMarks", QuizVal.qnat 5)]
        7).1.quizzes.find? (fun z => z.id == wQuizId)
      = some { wQuiz with questions := ["a"], totalMarks := 5,
                          updatedAt := some 7 }) :=
  ⟨((C2_submission_lock_drops_restricted_fields wDBquizSub wQuizId wTeacherId 7
      wQuiz (by decide) (by decide) (by decide) (by decide)).1
    (by decide)
    [("questions", QuizVal.qlist ["a"]), ("totalMarks", QuizVal.qnat 5)]
    (by decide)).1,
   (C2_submission_lock_drops_restricted_fields wDBquiz wQuizId wTeacherId 7
      wQuiz (by decide) (by decide) (by decide) (by decide)).2.1
    (by decide) ["a"] 5⟩

/-- C9 counterexample: on the teacher update path the literal "string"
placeholder is NOT treated as no change — update_teacher persists it to the
stored user record. -/
theorem C9_placeholder_persisted_on_teacher_path_counterexample :
    (update_teacher wDBfull wTeacherId [("fullName", PyVal.vstr "string")] 7).1.users
      = [{ wUser with fullName := "string", updatedAt := 7 }]
    ∧ wUser.fullName ≠ "string" := by
  constructor
  · decide
  · decide

/-- C9 amended: empty-string values are treated as no change on both update
paths, except the clearable image fields (thumbnailUrl for courses,
profileImageURL for teachers) which may be set to empty; the literal
"string" placeholder is dropped only on the course path, while the teacher
path persists it. -/
theorem C9_empty_and_placeholder_update_semantics
    (db : DB) (cid t tid : String) (now : Nat)
    (course : Course) (teacher : TeacherDoc) (user : UserDoc)
    (hv1 : objectIdIsValid cid = true) (hv2 : objectIdIsValid t = true)
    (hc : db.courses.find? (courseQuery cid t) = some course)
    (hteach : db.teachers.find? (fun z => z.id == tid) = some teacher)
    (husome : teacher.userId.isSome = true)
    (huser : db.users.find? (fun u => teacher.userId == some u.id) = some user) :
    (∀ k, k ≠ "thumbnailUrl" →
      update_course db cid t [(k, PyVal.vstr "")] now = (db, some course))
    ∧ (∀ k, update_course db cid t [(k, PyVal.vstr "string")] now = (db, some course))
    ∧ ((update_course db cid t [("thumbnailUrl", PyVal.vstr "")] now).1.courses.find?
        (courseQuery cid t)
        = some { course with thumbnailUrl := "", updatedAt := now })
    ∧ (∀ k, k ≠ "profileImageURL" →
      update_teacher db tid [(k, PyVal.vstr "")] now = (db, true))
    ∧ ((update_teacher db tid [("profileImageURL", PyVal.vstr "")] now).1.users.find?
        (fun u => teacher.userId == some u.id)
        = some { user with profileImageURL := "", updatedAt := now }
      ∧ (update_teacher db tid [("profileImageURL", PyVal.vstr "")] now).1.teachers
        = db.teachers)
    ∧ ((update_teacher db tid [("fullName", PyVal.vstr "string")] now).1.users.find?
        (fun u => teacher.userId == some u.id)
        = some { user with fullName := "string", updatedAt := now }) := by
  have hcq := hc
  unfold courseQuery at hcq
  have hcp := List.find?_some hcq
  have hup := List.find?_some huser
  refine ⟨?_, ?_, ?_, ?_, ⟨?_, ?_⟩, ?_⟩
  · intro k hk
    have hkeep : keepEntry k (PyVal.vstr "") = false := by
      simp only [keepEntry]
      rw [show pyStrip "" = "" from rfl, show pyLower "" = "" from rfl]
      simp [bne_iff_ne, hk]
    have hclean : clean_update_data [(k, PyVal.vstr "")] = [] := by
      simp [clean_update_data, hkeep]
    unfold update_course
    rw [if_neg (by simp [hv1]), if_neg (by simp [hv2]), hcq]
    simp only [hclean, List.isEmpty_nil, if_true]
  · intro k
    have hkeep : keepEntry k (PyVal.vstr "string") = false := by
      simp only [keepEntry]
      rw [show pyStrip "string" = "string" from rfl,
        show pyLower "string" = "string" from rfl]
      simp
    have hclean : clean_update_data [(k, PyVal.vstr "string")] = [] := by
      simp [clean_update_data, hkeep]
    unfold update_course
    rw [if_neg (by simp [hv1]), if_neg (by simp [hv2]), hcq]
    simp only [hclean, List.isEmpty_nil, if_true]
  · unfold update_course
    rw [if_neg (by simp [hv1]), if_neg (by simp [hv2]), hcq]
    simp only [
      show (clean_update_data [("thumbnailUrl", PyVal.vstr "")]).isEmpty = false
        from rfl,
      Bool.false_eq_true, if_false,
      show cleanedTeacherId (clean_update_data [("thumbnailUrl", PyVal.vstr "")])
        = none from rfl]
    unfold courseQuery
    rw [find?_updateFirst_self (fun c => c.id == cid && c.tenantId == t)
      (fun c => { applyCourseSets c
          (clean_update_data [("thumbnailUrl", PyVal.vstr "")]) with
        updatedAt := now })
      db.courses course hcq (by simpa using hcp)]
    rfl
  · intro k hk
    have hkeep : teacherKeepEntry k (PyVal.vstr "") = false := by
      simp only [teacherKeepEntry]
      rw [show pyStrip "" = "" from rfl]
      simp [bne_iff_ne, hk]
    have hfilter : ([(k, PyVal.vstr "")] : List (String × PyVal)).filter
        (fun kv => teacherKeepEntry kv.1 kv.2) = [] := by
      simp [hkeep]
    unfold update_teacher
    rw [hteach]
    simp only [hfilter, List.isEmpty_nil, if_true]
  · unfold update_teacher
    rw [hteach]
    simp only [
      show ([("profileImageURL", PyVal.vstr "")] : List (String × PyVal)).filter
        (fun kv => teacherKeepEntry kv.1 kv.2)
        = [("profileImageURL", PyVal.vstr "")] from rfl,
      show ([("profileImageURL", PyVal.vstr "")] : List (String × PyVal)).filter
        (fun kv => decide (kv.1 ∈ userFields))
        = [("profileImageURL", PyVal.vstr "")] from rfl,
      show ([("profileImageURL", PyVal.vstr "")] : List (String × PyVal)).filter
        (fun kv => decide (kv.1 ∉ userFields)) = [] from rfl]
    simp only [List.isEmpty_nil, List.isEmpty_cons, husome, Bool.and_true,
      Bool.not_false, if_true, Bool.false_eq_true, if_false]
    rw [find?_updateFirst_self (fun u => teacher.userId == some u.id)
      (fun u => { applyUserSets u [("profileImageURL", PyVal.vstr "")] with
        updatedAt := now })
      db.users user huser (by simpa using hup)]
    rfl
  · unfold update_teacher
    rw [hteach]
    simp only [
      show ([("profileImageURL", PyVal.vstr "")] : List (String × PyVal)).filter
        (fun kv => teacherKeepEntry kv.1 kv.2)
        = [("profileImageURL", PyVal.vstr "")] from rfl,
      show ([("profileImageURL", PyVal.vstr "")] : List (String × PyVal)).filter
        (fun kv => decide (kv.1 ∈ userFields))
        = [("profileImageURL", PyVal.vstr "")] from rfl,
      show ([("profileImageURL", PyVal.vstr "")] : List (String × PyVal)).filter
        (fun kv => decide (kv.1 ∉ userFields)) = [] from rfl]
    simp only [List.isEmpty_nil, List.isEmpty_cons, husome, Bool.and_true,
      Bool.not_false, if_true, Bool.false_eq_true, if_false]
    simp
  · unfold update_teacher
    rw [hteach]
    simp only [
      show ([("fullName", PyVal.vstr "string")] : List (String × PyVal)).filter
        (fun kv => teacherKeepEntry kv.1 kv.2)
        = [("fullName", PyVal.vstr "string")] from rfl,
      show ([("fullName", PyVal.vstr "string")] : List (String × PyVal)).filter
        (fun kv => decide (kv.1 ∈ userFields))
        = [("fullName", PyVal.vstr "string")] from rfl,
      show ([("fullName", PyVal.vstr "string")] : List (String × PyVal)).filter
        (fun kv => decide (kv.1 ∉ userFields)) = [] from rfl]
    simp only [List.isEmpty_nil, List.isEmpty_cons, husome, Bool.and_true,
      Bool.not_false, if_true, Bool.false_eq_true, if_false]
    rw [find?_updateFirst_self (fun u => teacher.userId == some u.id)
      (fun u => { applyUserSets u [("fullName", PyVal.vstr "string")] with
        updatedAt := now })
      db.users user huser (by simpa using hup)]
    rfl

/-- Witness for the amended C9 at the concrete store. -/
theorem C9_empty_and_placeholder_update_semantics_witness :
    (update_course wDBfull wCourseId wTenantId [("title", PyVal.vstr "")] 7
      = (wDBfull, some wCourse))
    ∧ (update_course wDBfull wCourseId wTenantId [("title", PyVal.vstr "string")] 7
      = (wDBfull, some wCourse))
    ∧ (update_teacher wDBfull wTeacherId [("fullName", PyVal.vstr "")] 7
      = (wDBfull, true))
    ∧ ((update_teacher wDBfull wTeacherId
          [("profileImageURL", PyVal.vstr "")] 7).1.users.find?
          (fun u => wTeacher.userId == some u.id)
        = some { wUser with profileImageURL := "", updatedAt := 7 }) := by
  have h := C9_empty_and_placeholder_update_semantics wDBfull wCourseId wTenantId
    wTeacherId 7 wCourse wTeacher wUser (by decide) (by decide) (by decide)
    (by decide) (by decide) (by decide)
  exact ⟨h.1 "title" (by decide), h.2.1 "title",
    h.2.2.2.1 "fullName" (by decide), h.2.2.2.2.1.1⟩

end EduVerse
